import Mathlib

/-
Verification development for the Logic-Simulator definition-language front end
(src/scanner.py and src/parse.py), as a shallow embedding in Lean 4.

Interned name ids (the external Names table maps strings to stable unique
integer ids) are modelled by the inductive type SymId: one constructor per
reserved word or punctuation mark, and `str s` for every dynamically interned
string (device names, digit strings, stray characters).  Interning is
injective, so identifying an id with the string it interns is faithful.

The scanner is modelled twice, matching its two roles in the source:
 - a character-level model (ScanSt, get_next_character, comment_check,
   scanner_get_symbol) translated from src/scanner.py, used for the lexical
   claims and to tokenize concrete programs;
 - at parser level, the token stream already produced by the scanner is a
   `List Symbol`; `get_symbol` pops the next token and returns an EndOfFile
   symbol once the stream is exhausted (the real scanner returns EOF symbols
   forever at end of file).

Python methods returning None are modelled by `false` where the caller only
tests truthiness (this is noted at each such definition).
-/

namespace LogicSim

/-- Interned name ids.  The constructors list the reserved words created in
Scanner.__init__ (EOF "", punctuation, initial states, list keywords, device
keywords); `str s` is the id interning any other string. -/
inductive SymId where
  | eof | colon | semicolon | arrow | period
  | off | on
  | dlist | clist | mlist | end_
  | and_ | nand | or_ | nor | xor_ | dtype | clock | switch | siggen
  | str (s : String)
deriving DecidableEq, Repr

/-- names.get_name_string: the string an id interns. -/
def get_name_string : Option SymId → String
  | some SymId.eof => ""
  | some SymId.colon => ":"
  | some SymId.semicolon => ";"
  | some SymId.arrow => "->"
  | some SymId.period => "."
  | some SymId.off => "OFF"
  | some SymId.on => "ON"
  | some SymId.dlist => "DEVICE_LIST"
  | some SymId.clist => "CONNECTION_LIST"
  | some SymId.mlist => "MONITOR_LIST"
  | some SymId.end_ => "END"
  | some SymId.and_ => "AND"
  | some SymId.nand => "NAND"
  | some SymId.or_ => "OR"
  | some SymId.nor => "NOR"
  | some SymId.xor_ => "XOR"
  | some SymId.dtype => "DTYPE"
  | some SymId.clock => "CLOCK"
  | some SymId.switch => "SWITCH"
  | some SymId.siggen => "SIGGEN"
  | some (SymId.str s) => s
  | none => ""

/-- Scanner.keywords_list. -/
def keywords_list : List SymId := [SymId.dlist, SymId.clist, SymId.mlist, SymId.end_]

/-- Scanner.device_keywords. -/
def device_keywords : List SymId :=
  [SymId.and_, SymId.nand, SymId.or_, SymId.nor, SymId.xor_,
   SymId.dtype, SymId.clock, SymId.switch, SymId.siggen]

/-- Scanner.initial_states. -/
def initial_states : List SymId := [SymId.off, SymId.on]

/-- Python `symbol.id in list` where `symbol.id` may be None. -/
def idMem (i : Option SymId) (l : List SymId) : Bool :=
  match i with
  | some x => l.contains x
  | none => false

/-- Symbol type codes, Scanner.types = range(9). -/
def KEYWORDS : Nat := 0
def DEVICETYPE : Nat := 1
def NAMES : Nat := 2
def PROPERTY : Nat := 3
def NUMBER : Nat := 4
def CL : Nat := 5
def SCL : Nat := 6
def AR : Nat := 7
def PE : Nat := 8

/-- Parser.symbol_types (display strings, indexed by the type codes). -/
def symbol_types : List String :=
  ["KEYWORD", "DEVICE TYPE", "NAME", "INITIAL STATE", "NUMBER",
   "COLON", "SEMI COLON", "ARROW (->)", "PERIOD (.)"]

/-- Parser.INPUT, Parser.OUTPUT = range(2). -/
def INPUT : Nat := 0
def OUTPUT : Nat := 1

/-- scanner.Symbol: a token with its type, interned id and source position.
`type` is None for EOF and for the lexical anomaly `-` not followed by `>`;
`id` is None only for that anomaly. -/
structure Symbol where
  type : Option Nat
  id : Option SymId
  linenum : Nat
  colnum : Nat
deriving DecidableEq, Repr

/-- The EndOfFile symbol delivered once the token stream is exhausted
(the real scanner fills in its current line/column; no claim depends on the
position of an EOF token, so 0/0 is used). -/
def eofSymbol : Symbol := ⟨none, some SymId.eof, 0, 0⟩

/-- Error codes.  The source obtains unique integer codes from
names.unique_error_codes and from the Devices/Network/Monitors collaborators;
uniqueness makes an inductive type a faithful model.  NO_ERROR is the
success sentinel the collaborators return. -/
inductive ErrCode where
  | NO_ERROR
  | SYNTAX_COLON | KEYWORD_ERROR | SYMBOL_TYPE_ERROR | NO_DEVICE | BAD_NAME
  | NOT_VALID_NAME | SYNTAX | END_ERROR | IDENTIFIER_PRESENT
  | UNCONNECTED_INPUTS | NO_MONITOR | NO_IDENTIFIER | NO_EOF
  | NOT_OUTPUT | MONITOR_PRESENT
  | INPUT_TO_INPUT | OUTPUT_TO_OUTPUT | INPUT_CONNECTED | PORT_ABSENT
  | DEVICE_ABSENT
  | INVALID_QUALIFIER | NO_QUALIFIER | BAD_DEVICE | QUALIFIER_PRESENT
  | DEVICE_PRESENT
deriving DecidableEq, Repr

/-- A device property as computed by Parser.get_property: a switch level
(devices.LOW/HIGH), an integer, or the literal digit string for SIGGEN. -/
inductive PropV where
  | level (high : Bool)
  | num (n : Nat)
  | bits (s : String)
deriving DecidableEq, Repr

/-- Modelled from the spec: a device of the Device Model (devices.py is not
in src/).  D_TYPE devices have inputs DATA, CLK, SET, CLEAR and outputs
Q, QBAR; gates have inputs named by ordinal input index (rendered as the
identifiers I1..In, since the parser only accepts identifier tokens as pin
names) and a single unnamed output; CLOCK/SWITCH/SIGGEN have a single
unnamed output and no inputs. -/
structure Device where
  device_kind : Option SymId
  property : Option PropV
  inputs : List SymId
  outputs : List (Option SymId)
deriving DecidableEq, Repr

/-- Modelled from the spec: the Device Model state.  `makeCalls` counts the
invocations of make_device (instrumentation used to state that the
syntax-only passes perform no entity construction). -/
structure Devices where
  devmap : List (Option SymId × Device)
  makeCalls : Nat
deriving DecidableEq, Repr

/-- devices.get_device. -/
def get_device (ds : Devices) (id : Option SymId) : Option Device :=
  match ds.devmap.find? (fun e => e.1 == id) with
  | some e => some e.2
  | none => none

def gate_types : List SymId :=
  [SymId.and_, SymId.nand, SymId.or_, SymId.nor, SymId.xor_]

/-- Input pin names I1..In of an n-input gate. -/
def input_pins_gate (n : Nat) : List SymId :=
  (List.range n).map (fun i => SymId.str ("I" ++ toString (i + 1)))

def dtype_inputs : List SymId :=
  [SymId.str "DATA", SymId.str "CLK", SymId.str "SET", SymId.str "CLEAR"]

def dtype_outputs : List (Option SymId) :=
  [some (SymId.str "Q"), some (SymId.str "QBAR")]

def addDev (ds : Devices) (id : Option SymId) (d : Device) : Devices :=
  { ds with devmap := ds.devmap ++ [(id, d)] }

/-- Modelled from the spec: devices.make_device (devices.py is not in src/).
Validation per kind follows 4.3 and the parser error-message table:
duplicate name; SWITCH needs an initial state; CLOCK a positive integer;
SIGGEN a non-empty string of 0s and 1s; AND/NAND/OR/NOR an input count in
1..16; XOR and DTYPE accept no property. -/
def make_device (ds : Devices) (id : Option SymId) (kind : Option SymId)
    (property : Option PropV) : ErrCode × Devices :=
  let ds := { ds with makeCalls := ds.makeCalls + 1 }
  if (get_device ds id).isSome then (ErrCode.DEVICE_PRESENT, ds)
  else
    match kind with
    | some SymId.switch =>
      match property with
      | none => (ErrCode.NO_QUALIFIER, ds)
      | some (PropV.level b) =>
        (ErrCode.NO_ERROR, addDev ds id ⟨kind, some (PropV.level b), [], [none]⟩)
      | some _ => (ErrCode.INVALID_QUALIFIER, ds)
    | some SymId.clock =>
      match property with
      | none => (ErrCode.NO_QUALIFIER, ds)
      | some (PropV.num n) =>
        if 1 ≤ n then
          (ErrCode.NO_ERROR, addDev ds id ⟨kind, some (PropV.num n), [], [none]⟩)
        else (ErrCode.INVALID_QUALIFIER, ds)
      | some _ => (ErrCode.INVALID_QUALIFIER, ds)
    | some SymId.siggen =>
      match property with
      | none => (ErrCode.NO_QUALIFIER, ds)
      | some (PropV.bits s) =>
        if 1 ≤ s.length ∧ s.toList.all (fun c => c = '0' ∨ c = '1') then
          (ErrCode.NO_ERROR, addDev ds id ⟨kind, some (PropV.bits s), [], [none]⟩)
        else (ErrCode.INVALID_QUALIFIER, ds)
      | some _ => (ErrCode.INVALID_QUALIFIER, ds)
    | some SymId.xor_ =>
      match property with
      | none => (ErrCode.NO_ERROR, addDev ds id ⟨kind, none, input_pins_gate 2, [none]⟩)
      | some _ => (ErrCode.QUALIFIER_PRESENT, ds)
    | some SymId.dtype =>
      match property with
      | none => (ErrCode.NO_ERROR, addDev ds id ⟨kind, none, dtype_inputs, dtype_outputs⟩)
      | some _ => (ErrCode.QUALIFIER_PRESENT, ds)
    | some SymId.and_ | some SymId.nand | some SymId.or_ | some SymId.nor =>
      match property with
      | none => (ErrCode.NO_QUALIFIER, ds)
      | some (PropV.num n) =>
        if 1 ≤ n ∧ n ≤ 16 then
          (ErrCode.NO_ERROR, addDev ds id ⟨kind, some (PropV.num n), input_pins_gate n, [none]⟩)
        else (ErrCode.INVALID_QUALIFIER, ds)
      | some _ => (ErrCode.INVALID_QUALIFIER, ds)
    | _ => (ErrCode.BAD_DEVICE, ds)

/-- Modelled from the spec: the Connection Graph state (network.py is not in
src/).  A connection maps an (input device, input pin) to the
(output device, output port) driving it.  `makeCalls` counts invocations of
make_connection. -/
structure Network where
  connections : List ((Option SymId × Option SymId) × (Option SymId × Option SymId))
  makeCalls : Nat
deriving DecidableEq, Repr

/-- Modelled from the spec: network.make_connection (network.py is not in
src/).  Checks, per 4.4: both devices exist; the output endpoint is an
output port (an input there is input-to-input, an unknown pin PORT_ABSENT);
the input endpoint is an input pin (an output there is output-to-output);
the input pin is not already driven. -/
def make_connection (ds : Devices) (net : Network)
    (input_id : Option SymId) (input_port : Option SymId)
    (output_id : Option SymId) (output_port : Option SymId) : ErrCode × Network :=
  let net := { net with makeCalls := net.makeCalls + 1 }
  match get_device ds input_id, get_device ds output_id with
  | none, _ => (ErrCode.DEVICE_ABSENT, net)
  | some _, none => (ErrCode.DEVICE_ABSENT, net)
  | some ind, some outd =>
    if ¬ outd.outputs.contains output_port then
      (if idMem output_port outd.inputs then
        (ErrCode.INPUT_TO_INPUT, net)
      else (ErrCode.PORT_ABSENT, net))
    else if ¬ idMem input_port ind.inputs then
      (if ind.outputs.contains input_port then (ErrCode.OUTPUT_TO_OUTPUT, net)
       else (ErrCode.PORT_ABSENT, net))
    else if net.connections.any (fun e => e.1 == (input_id, input_port)) then
      (ErrCode.INPUT_CONNECTED, net)
    else
      (ErrCode.NO_ERROR,
       { net with connections :=
          net.connections ++ [((input_id, input_port), (output_id, output_port))] })

/-- Modelled from the spec: network.check_network, true iff every input pin
of every device is driven by some connection. -/
def check_network (ds : Devices) (net : Network) : Bool :=
  ds.devmap.all (fun e =>
    e.2.inputs.all (fun pin =>
      net.connections.any (fun c => c.1 == (e.1, some pin))))

/-- Modelled from the spec: the Signal-Trace Recorder state (monitors.py is
not in src/).  `makeCalls` counts invocations of make_monitor. -/
structure Monitors where
  monitors_dictionary : List (Option SymId × Option SymId)
  makeCalls : Nat
deriving DecidableEq, Repr

/-- Modelled from the spec: monitors.make_monitor (monitors.py is not in
src/).  NOT_OUTPUT when the referenced point is not an output of an existing
device, MONITOR_PRESENT when already registered. -/
def make_monitor (ds : Devices) (ms : Monitors)
    (device_id : Option SymId) (output_port : Option SymId) : ErrCode × Monitors :=
  let ms := { ms with makeCalls := ms.makeCalls + 1 }
  match get_device ds device_id with
  | none => (ErrCode.NOT_OUTPUT, ms)
  | some d =>
    if ¬ d.outputs.contains output_port then (ErrCode.NOT_OUTPUT, ms)
    else if ms.monitors_dictionary.contains (device_id, output_port) then
      (ErrCode.MONITOR_PRESENT, ms)
    else
      (ErrCode.NO_ERROR,
       { ms with monitors_dictionary := ms.monitors_dictionary ++ [(device_id, output_port)] })

/-- The parser state: the not-yet-consumed token stream, the current symbol,
the error accumulator (Parser.error_count / Parser.error_messages), the two
recovery flags, the three collaborator states, and `printed`, the (message,
line, column) entries displayed by error_report. -/
structure PState where
  scanner : List Symbol
  symbol : Symbol
  error_count : Nat
  error_messages : List (String × Nat × Nat)
  missing_end : Bool
  reached_eof : Bool
  devices : Devices
  network : Network
  monitors : Monitors
  printed : List (String × Nat × Nat)
deriving DecidableEq, Repr

/-- scanner.get_symbol at parser level: pop the next token; at end of the
stream the scanner keeps returning EOF symbols. -/
def get_symbol (p : PState) : PState :=
  match p.scanner with
  | [] => { p with symbol := eofSymbol }
  | t :: ts => { p with symbol := t, scanner := ts }

/-- The stopping (recovery) set built by Parser.error for each error type:
always at least EOF; the branches mirror the source chain. -/
def stopping_symbols (error_type : ErrCode) : List SymId :=
  let base := [SymId.eof]
  match error_type with
  | ErrCode.NO_EOF => base
  | ErrCode.KEYWORD_ERROR => base ++ [SymId.end_]
  | ErrCode.SYNTAX_COLON => base ++ [SymId.end_]
  | ErrCode.SYMBOL_TYPE_ERROR => base ++ [SymId.semicolon, SymId.end_]
  | ErrCode.NO_DEVICE => base ++ [SymId.semicolon, SymId.end_]
  | ErrCode.BAD_NAME => base ++ [SymId.semicolon, SymId.end_]
  | ErrCode.NOT_VALID_NAME => base ++ [SymId.semicolon, SymId.end_]
  | ErrCode.SYNTAX => base ++ [SymId.semicolon, SymId.end_]
  | ErrCode.END_ERROR => base ++ keywords_list
  | ErrCode.IDENTIFIER_PRESENT => base ++ [SymId.semicolon, SymId.end_]
  | ErrCode.NO_IDENTIFIER => base ++ [SymId.semicolon, SymId.end_]
  | ErrCode.UNCONNECTED_INPUTS => base
  | ErrCode.NO_MONITOR => base
  | ErrCode.NOT_OUTPUT => base ++ [SymId.semicolon, SymId.end_]
  | ErrCode.MONITOR_PRESENT => base ++ [SymId.semicolon, SymId.end_]
  | ErrCode.INPUT_TO_INPUT => base ++ [SymId.semicolon, SymId.end_]
  | ErrCode.OUTPUT_TO_OUTPUT => base ++ [SymId.semicolon, SymId.end_]
  | ErrCode.INPUT_CONNECTED => base ++ [SymId.semicolon, SymId.end_]
  | ErrCode.PORT_ABSENT => base ++ [SymId.semicolon, SymId.end_]
  | ErrCode.DEVICE_ABSENT => base ++ [SymId.semicolon, SymId.end_]
  | ErrCode.INVALID_QUALIFIER => base ++ [SymId.semicolon, SymId.end_]
  | ErrCode.NO_QUALIFIER => base ++ [SymId.semicolon, SymId.end_]
  | ErrCode.BAD_DEVICE => base ++ [SymId.semicolon, SymId.end_]
  | ErrCode.QUALIFIER_PRESENT => base ++ [SymId.semicolon, SymId.end_]
  | ErrCode.DEVICE_PRESENT => base ++ [SymId.semicolon, SymId.end_]
  | ErrCode.NO_ERROR => base

/-- The vararg of Parser.error: an interned id (keyword, punctuation mark or
device kind) or a display string. -/
inductive Vararg where
  | vid (i : Option SymId)
  | vstr (s : String)
deriving DecidableEq, Repr

/-- The message text built by Parser.error for each error type (same branch
chain as the source; \x27 is the apostrophe). -/
def error_message (error_type : ErrCode) (vararg : Option Vararg) : String :=
  let m := "***Error: "
  match error_type with
  | ErrCode.NO_EOF => m ++ "End of file not reached."
  | ErrCode.KEYWORD_ERROR =>
    let key := match vararg with
      | some (Vararg.vid i) => get_name_string i
      | _ => ""
    m ++ "List declaration not made. Expected \x27" ++ key ++ "\x27. Advancing to next list."
  | ErrCode.SYNTAX_COLON =>
    m ++ "Expected a \x27:\x27 after a list declaration. Advancing to next list."
  | ErrCode.SYMBOL_TYPE_ERROR =>
    let t := match vararg with
      | some (Vararg.vstr s) => s
      | _ => ""
    m ++ "Expected a " ++ t ++ "."
  | ErrCode.NO_DEVICE => m ++ "This does not match a known device."
  | ErrCode.BAD_NAME =>
    m ++ "Expected a name for the device. Make sure it is not one of the " ++
      "reserved keywords and follows the correct syntax."
  | ErrCode.NOT_VALID_NAME => m ++ "Already used as a name for another device."
  | ErrCode.SYNTAX =>
    let syn := match vararg with
      | some (Vararg.vid i) => get_name_string i
      | _ => ""
    m ++ "Expected a \x27" ++ syn ++ "\x27."
  | ErrCode.END_ERROR => m ++ "Expected either another item in list or the keyword END."
  | ErrCode.IDENTIFIER_PRESENT => m ++ "Not expecting an identifier."
  | ErrCode.NO_IDENTIFIER => m ++ "No identifier present."
  | ErrCode.UNCONNECTED_INPUTS => m ++ "Not all inputs are connected."
  | ErrCode.NO_MONITOR =>
    m ++ "No monitor points chosen. At least one output must be monitored."
  | ErrCode.NOT_OUTPUT => m ++ "This point cannot be monitored as it is not an output."
  | ErrCode.MONITOR_PRESENT => m ++ "This point is already being monitored."
  | ErrCode.INPUT_TO_INPUT => m ++ "Cannot connect an input to an input."
  | ErrCode.OUTPUT_TO_OUTPUT => m ++ "Cannot connect an output to an output."
  | ErrCode.INPUT_CONNECTED => m ++ "The input is already connected elsewhere."
  | ErrCode.PORT_ABSENT => m ++ "One of the ports does not exist."
  | ErrCode.DEVICE_ABSENT => m ++ "One of the devices does not exist in network."
  | ErrCode.INVALID_QUALIFIER =>
    let b := m ++ "Property not recognised for device."
    (match vararg with
     | some (Vararg.vid (some SymId.switch)) =>
       b ++ " Make sure property is either \x27OFF\x27 or \x27ON\x27."
     | some (Vararg.vid (some SymId.clock)) =>
       b ++ " Make sure property is a positive integer."
     | some (Vararg.vid (some SymId.siggen)) =>
       b ++ " Make sure property contains only \x270\x27s and \x271\x27s."
     | some (Vararg.vid (some k)) =>
       if k ∈ gate_types ∧ k ≠ SymId.xor_ then
         b ++ " Make sure property is an integer less than 17 (and greater than 0)."
       else b
     | _ => b)
  | ErrCode.NO_QUALIFIER => m ++ "Expected a property for the device."
  | ErrCode.BAD_DEVICE =>
    m ++ "Something went wrong adding this device to the network."
  | ErrCode.QUALIFIER_PRESENT => m ++ "Property not required for this device."
  | ErrCode.DEVICE_PRESENT => m ++ "This device already exists."
  | ErrCode.NO_ERROR => m

/-- The recovery skip loop of Parser.error (`while symbol.id not in
stopping_symbol: get_symbol`).  Structural on the remaining stream: once the
stream is exhausted the scanner returns the EOF symbol, which stops the loop
because every stopping set contains EOF (theorem stopping_symbols_eof). -/
def skip_to (stops : List SymId) (sym : Symbol) (toks : List Symbol) :
    Symbol × List Symbol :=
  if idMem sym.id stops then (sym, toks)
  else
    match toks with
    | [] => (eofSymbol, [])
    | t :: ts => skip_to stops t ts

/-- Parser.error.  Increments the error count, builds the message, records
(message, line, column) of the symbol current when the error was raised,
and when advance_symbol is set skips to the first stopping symbol, consuming
it unless it is EOF (in which case reached_eof is set).  Returns the id of
the stopping symbol landed on (None when not advancing), as the source does. -/
def error (error_type : ErrCode) (advance_symbol : Bool) (vararg : Option Vararg)
    (p : PState) : Option (Option SymId) × PState :=
  let p0 := { p with error_count := p.error_count + 1 }
  let msg := error_message error_type vararg
  let stops := stopping_symbols error_type
  let l := p.symbol.linenum
  let c := p.symbol.colnum
  if advance_symbol then
    let sr := skip_to stops p0.symbol p0.scanner
    if sr.1.id ≠ some SymId.eof then
      let p1 := get_symbol { p0 with symbol := sr.1, scanner := sr.2 }
      let msg := msg ++ " Parsing resumed on line " ++ toString p1.symbol.linenum ++
        "." ++ "***\n"
      (some sr.1.id, { p1 with error_messages := p1.error_messages ++ [(msg, l, c)] })
    else
      let p1 := { p0 with symbol := sr.1, scanner := sr.2, reached_eof := true }
      (some sr.1.id,
       { p1 with error_messages := p1.error_messages ++ [(msg ++ "***\n", l, c)] })
  else
    (none, { p0 with error_messages := p0.error_messages ++ [(msg ++ "***\n", l, c)] })

/-- Parser.check_keyword. -/
def check_keyword (keyword : SymId) (p : PState) : Bool × PState :=
  if p.symbol.id = some keyword then
    let p := get_symbol p
    if p.symbol.type = some CL then (true, get_symbol p)
    else (false, (error ErrCode.SYNTAX_COLON true none p).2)
  else (false, (error ErrCode.KEYWORD_ERROR true (some (Vararg.vid (some keyword))) p).2)

/-- Parser.check_end. -/
def check_end (error_recovery : Bool) (p : PState) : PState :=
  if p.symbol.id = some SymId.end_ then get_symbol p
  else (error ErrCode.END_ERROR error_recovery none p).2

/-- Parser.check_valid_name. -/
def check_valid_name (p : PState) (id : Option SymId) : Bool :=
  if (get_device p.devices id).isSome then false else true

/-- Python int() on the digit strings the scanner delivers as NUMBER tokens
(the only strings the parser converts): their positional decimal value.
String.toNat! is not kernel-reducible, so the conversion is spelled out. -/
def strToNat (s : String) : Nat :=
  s.toList.foldl (fun n c => n * 10 + (c.toNat - 48)) 0

/-- Parser.get_property.  `type` is the device-kind id; the current symbol is
the property token.  For a SWITCH with an initial-state property returns
devices.LOW/HIGH; for a NUMBER token returns the SIGGEN digit string itself
or the integer it denotes; otherwise None. -/
def get_property (type : Option SymId) (p : PState) : Option PropV :=
  let property := p.symbol.id
  if type = some SymId.switch ∧ idMem property initial_states then
    (if property = some SymId.off then some (PropV.level false)
     else some (PropV.level true))
  else if p.symbol.type = some NUMBER then
    let prop := get_name_string property
    (if type = some SymId.siggen then some (PropV.bits prop)
     else some (PropV.num (strToNat prop)))
  else none

/-- Parser.get_io.  Returns ((device_id, port_id), state); (None, None) is
the failure sentinel the callers compare against, as in the source. -/
def get_io (ioKind : Nat) (p : PState) : (Option SymId × Option SymId) × PState :=
  let id := p.symbol.id
  match get_device p.devices id with
  | none => ((none, none), (error ErrCode.NO_DEVICE true none p).2)
  | some device =>
    let expect_identifier := ioKind = INPUT ∨ device.device_kind = some SymId.dtype
    let p := get_symbol p
    if p.symbol.type = some PE then
      (if expect_identifier then
        let p := get_symbol p
        (if p.symbol.type = some NAMES then
          let port := p.symbol.id
          ((id, port), get_symbol p)
        else ((none, none), (error ErrCode.NO_IDENTIFIER true none p).2))
      else ((none, none), (error ErrCode.IDENTIFIER_PRESENT true none p).2))
    else if expect_identifier then
      ((none, none), (error ErrCode.SYNTAX true (some (Vararg.vid (some SymId.period))) p).2)
    else ((id, none), p)

/-- Parser.check_io. -/
def check_io (ioKind : Nat) (p : PState) : Bool × PState :=
  let p := get_symbol p
  if p.symbol.type = some PE then
    let p := get_symbol p
    (if p.symbol.type = some NAMES then (true, get_symbol p)
     else (false, (error ErrCode.NO_IDENTIFIER true none p).2))
  else (true, p)

/-- Parser.device: parse one device declaration and make the device. -/
def device (p : PState) : Bool × PState :=
  let type := p.symbol.id
  if ¬ idMem type device_keywords then
    (false, (error ErrCode.NO_DEVICE true none p).2)
  else
    let p := get_symbol p
    if p.symbol.type = some NAMES then
      let id := p.symbol.id
      if ¬ check_valid_name p id then
        (false, (error ErrCode.NOT_VALID_NAME true none p).2)
      else
        let p := get_symbol p
        let pr :=
          if p.symbol.type = some PROPERTY ∨ p.symbol.type = some NUMBER then
            (get_property type p, get_symbol p)
          else (none, p)
        let property := pr.1
        let p := pr.2
        let md := make_device p.devices id type property
        let p := { p with devices := md.2 }
        if md.1 ≠ ErrCode.NO_ERROR then
          (false, (error md.1 true (some (Vararg.vid type)) p).2)
        else if p.symbol.type = some SCL then (true, get_symbol p)
        else
          (false, (error ErrCode.SYNTAX true (some (Vararg.vid (some SymId.semicolon))) p).2)
    else (false, (error ErrCode.BAD_NAME true none p).2)

/-- Parser.connect: parse one connection item and make the connection. -/
def connect (p : PState) : Bool × PState :=
  let io1 := get_io OUTPUT p
  let output_ref := io1.1
  let p := io1.2
  if output_ref = (none, none) then (false, p)
  else if p.symbol.type = some AR then
    let p := get_symbol p
    if p.symbol.type = some NAMES then
      let io2 := get_io INPUT p
      let input_ref := io2.1
      let p := io2.2
      if input_ref = (none, none) then (false, p)
      else
        let mc := make_connection p.devices p.network input_ref.1 input_ref.2
          output_ref.1 output_ref.2
        let p := { p with network := mc.2 }
        if mc.1 ≠ ErrCode.NO_ERROR then (false, (error mc.1 true none p).2)
        else if p.symbol.type = some SCL then (true, get_symbol p)
        else
          (false, (error ErrCode.SYNTAX true (some (Vararg.vid (some SymId.semicolon))) p).2)
    else
      (false, (error ErrCode.SYMBOL_TYPE_ERROR true (some (Vararg.vstr "NAME")) p).2)
  else (false, (error ErrCode.SYNTAX true (some (Vararg.vid (some SymId.arrow))) p).2)

/-- the source method connect_syntax of Parser (returns None in the source; only the state
matters). -/
def connect_syn (p : PState) : PState :=
  let ci := check_io OUTPUT p
  let p := ci.2
  if ¬ ci.1 then p
  else if p.symbol.type = some AR then
    let p := get_symbol p
    if p.symbol.type = some NAMES then
      let ci2 := check_io INPUT p
      let p := ci2.2
      if ¬ ci2.1 then p
      else if p.symbol.type = some SCL then get_symbol p
      else (error ErrCode.SYNTAX true (some (Vararg.vid (some SymId.semicolon))) p).2
    else (error ErrCode.SYMBOL_TYPE_ERROR true (some (Vararg.vstr "NAME")) p).2
  else (error ErrCode.SYNTAX true (some (Vararg.vid (some SymId.arrow))) p).2

/-- Parser.monitor: parse one monitor item and make the monitor point.  The
source method returns None on every path, which is falsy in build_list, so
the Bool component is always false. -/
def monitor (p : PState) : Bool × PState :=
  let io1 := get_io OUTPUT p
  let output_ref := io1.1
  let p := io1.2
  if output_ref = (none, none) then (false, p)
  else
    let mm := make_monitor p.devices p.monitors output_ref.1 output_ref.2
    let p := { p with monitors := mm.2 }
    if mm.1 ≠ ErrCode.NO_ERROR then (false, (error mm.1 true none p).2)
    else if p.symbol.type = some SCL then (false, get_symbol p)
    else (false, (error ErrCode.SYNTAX true (some (Vararg.vid (some SymId.semicolon))) p).2)

/-- the source method monitor_syntax of Parser (returns None in the source; only the state
matters). -/
def monitor_syn (p : PState) : PState :=
  let ci := check_io OUTPUT p
  let p := ci.2
  if ¬ ci.1 then p
  else if p.symbol.type = some SCL then get_symbol p
  else (error ErrCode.SYNTAX true (some (Vararg.vid (some SymId.semicolon))) p).2

/-- Parser.build_list, with explicit fuel for the item loop.  Each loop
iteration consumes at least one token of the stream, or leaves the current
symbol at EOF, so the fuel the callers pass (stream length + 2) is never
exhausted and the definition agrees with the unbounded source loop. -/
def build_list (expected_type : Nat) (method : PState → Bool × PState) :
    Nat → Bool → PState → Bool × PState
  | 0, success, p => (success, p)
  | fuel + 1, success, p =>
    if p.symbol.id ≠ some SymId.end_ ∧ p.symbol.id ≠ some SymId.eof then
      if p.symbol.type = some expected_type then
        let r := method p
        build_list expected_type method fuel (success && r.1) r.2
      else if p.symbol.type = some KEYWORDS ∨ p.symbol.type = some CL then
        let q := (error ErrCode.END_ERROR false none p).2
        (false, { q with missing_end := true })
      else
        let q := (error ErrCode.SYMBOL_TYPE_ERROR true
          (some (Vararg.vstr (symbol_types.getD expected_type ""))) p).2
        build_list expected_type method fuel false q
    else (success, p)

/-- the source method check_syntax of Parser, with explicit fuel as for build_list. -/
def check_syn (expected_type : Nat) (method : PState → PState) :
    Nat → PState → PState
  | 0, p => p
  | fuel + 1, p =>
    if p.symbol.id ≠ some SymId.end_ ∧ p.symbol.id ≠ some SymId.eof then
      if p.symbol.type = some expected_type then
        check_syn expected_type method fuel (method p)
      else if p.symbol.type = some KEYWORDS ∨ p.symbol.type = some CL then
        let q := (error ErrCode.END_ERROR false none p).2
        { q with missing_end := true }
      else
        let q := (error ErrCode.SYMBOL_TYPE_ERROR true
          (some (Vararg.vstr (symbol_types.getD expected_type ""))) p).2
        check_syn expected_type method fuel q
    else p

/-- Parser.devicelist.  The early return at reached_eof returns None in the
source, which parse_network treats as falsy. -/
def devicelist (p : PState) : Bool × PState :=
  if p.reached_eof then (false, p)
  else
    let ck := check_keyword SymId.dlist p
    if ¬ ck.1 then (false, ck.2)
    else
      let p := ck.2
      let bl := build_list DEVICETYPE device (p.scanner.length + 2) true p
      if ¬ bl.1 then
        let p := bl.2
        (if ¬ p.missing_end then (false, check_end true p)
         else (false, { p with missing_end := false }))
      else (true, check_end true bl.2)

/-- Parser.connectionlist.  Returns True immediately at reached_eof; the
bare `return` after a syntax-only missing END returns None (falsy), modelled
as false. -/
def connectionlist (semantic_checks : Bool) (p : PState) : Bool × PState :=
  if p.reached_eof then (true, p)
  else
    let ck := check_keyword SymId.clist p
    if ¬ ck.1 then (false, ck.2)
    else
      let p := ck.2
      if semantic_checks then
        let bl := build_list NAMES connect (p.scanner.length + 2) true p
        if ¬ bl.1 then
          let p := bl.2
          (if ¬ p.missing_end then (false, check_end true p)
           else (false, { p with missing_end := false }))
        else
          let p := bl.2
          if ¬ check_network p.devices p.network then
            let p := (error ErrCode.UNCONNECTED_INPUTS false none p).2
            (false, check_end true p)
          else (true, check_end true p)
      else
        let p := check_syn NAMES connect_syn (p.scanner.length + 2) p
        if p.missing_end then (false, { p with missing_end := false })
        else (true, check_end true p)

/-- Parser.monitorlist.  The source method returns None on every path and no
caller inspects the value, so only the state is returned. -/
def monitorlist (semantic_checks : Bool) (p : PState) : PState :=
  if p.reached_eof then p
  else
    let ck := check_keyword SymId.mlist p
    if ¬ ck.1 then ck.2
    else
      let p := ck.2
      let p :=
        if semantic_checks then
          let bl := build_list NAMES monitor (p.scanner.length + 2) true p
          let p := bl.2
          (if p.monitors.monitors_dictionary.isEmpty then
            (error ErrCode.NO_MONITOR false none p).2
          else p)
        else check_syn NAMES monitor_syn (p.scanner.length + 2) p
      let p := check_end false p
      if p.symbol.id ≠ some SymId.eof then (error ErrCode.NO_EOF false none p).2
      else p

/-- Parser.error_report: displays every accumulated (message, line, column)
entry; modelled as appending them to `printed`. -/
def error_report (p : PState) : PState :=
  { p with printed := p.printed ++ p.error_messages }

/-- Parser.parse_network: run the three sections in order, falling back to
the syntax-only pass for the remaining sections when a section fails, then
succeed iff the current symbol is EOF and no error was accumulated. -/
def parse_network (p : PState) : Bool × PState :=
  let p := get_symbol p
  let dl := devicelist p
  let p :=
    if ¬ dl.1 then
      let p := (connectionlist false dl.2).2
      monitorlist false p
    else
      let cl := connectionlist true dl.2
      if ¬ cl.1 then monitorlist false cl.2
      else monitorlist true cl.2
  if p.symbol.id = some SymId.eof ∧ p.error_count = 0 then (true, p)
  else (false, error_report p)

/-- The character-level scanner state: the unread characters of the
definition file, the line/column counters and the comment switch.
current_position/filesize of the source are represented by the unread list
itself (position advances one per read); the pending current_char attribute
is threaded explicitly as the first component of an `Option Char × ScanSt`
pair, mirroring the source assignments to self.current_char. -/
structure ScanSt where
  input : List Char
  line : Nat
  col : Nat
  commentSwitch : Nat
deriving DecidableEq, Repr

/-- Scanner.get_next_character: read one character (None past end of file),
advance the column/position counters, and on a newline bump the line
counter, reset the column and clear a single-line comment switch. -/
def gnc (st : ScanSt) : Option Char × ScanSt :=
  match st.input with
  | [] => (none, { st with col := st.col + 1 })
  | c :: cs =>
    let st := { st with input := cs, col := st.col + 1 }
    if c = '\n' then
      (some c,
       { st with line := st.line + 1, col := 0,
                 commentSwitch := if st.commentSwitch = 1 then 0 else st.commentSwitch })
    else (some c, st)

/-- Scanner.get_next_non_whitespace_character, with fuel for the read loop.
Each iteration reads exactly one character, so the wrapper fuel
(input length + 1) is exact for the recursion and never exhausted. -/
def gnnwcF : Nat → ScanSt → Option Char × ScanSt
  | 0, st => (none, st)
  | fuel + 1, st =>
    match st.input with
    | [] => (none, st)
    | _ :: _ =>
      let r := gnc st
      match r.1 with
      | none => (none, r.2)
      | some c => if c.isWhitespace then gnnwcF fuel r.2 else (some c, r.2)

def gnnwc (st : ScanSt) : Option Char × ScanSt :=
  gnnwcF (st.input.length + 1) st

/-- One iteration body of the while loop of Scanner.comment_check: when in
a block comment and on a '*', read the next character and close the comment
if it is '/'; then read the next non-whitespace character.  (`c` is the
pending current character, `st` the scanner state.) -/
def comment_loop_next (c : Char) (st : ScanSt) : Option Char × ScanSt :=
  let s1 :=
    if st.commentSwitch = 2 ∧ c = '*' then
      (let r := gnc st
       if r.1 = some '/' then (r.1, { r.2 with commentSwitch := 0 }) else r)
    else (some c, st)
  gnnwc s1.2

/-- The while loop of Scanner.comment_check (`while comment_switch != 0`),
with fuel (each iteration reads at least one character or ends with the
current character exhausted, so the wrapper fuel is never exhausted). -/
def comment_loopF : Nat → Option Char × ScanSt → Option Char × ScanSt
  | 0, s => s
  | fuel + 1, s =>
    if s.2.commentSwitch ≠ 0 then
      match s.1 with
      | none => s
      | some c => comment_loopF fuel (comment_loop_next c s.2)
    else s

def comment_loop (s : Option Char × ScanSt) : Option Char × ScanSt :=
  comment_loopF (s.2.input.length + 2) s

/-- The body of Scanner.comment_check once a '/' has been seen: read the
next character, set the comment switch for // or /*, read the next
non-whitespace character and run the comment loop. -/
def comment_check_next (st : ScanSt) : Option Char × ScanSt :=
  let r := gnc st
  let st1 := if r.1 = some '/' then { r.2 with commentSwitch := 1 } else r.2
  let st2 := if r.1 = some '*' then { st1 with commentSwitch := 2 } else st1
  comment_loop (gnnwc st2)

/-- Scanner.comment_check, with fuel for the trailing self-recursion that
skips immediately adjacent comments. -/
def comment_checkF : Nat → Option Char × ScanSt → Option Char × ScanSt
  | 0, s => s
  | fuel + 1, s =>
    if s.1 = some '/' then comment_checkF fuel (comment_check_next s.2)
    else s

def comment_check (s : Option Char × ScanSt) : Option Char × ScanSt :=
  comment_checkF (s.2.input.length + 2) s

/-- names.lookup for a single string: reserved strings intern to their fixed
ids, any other string to `str`. -/
def lookup_str (w : String) : SymId :=
  if w = "" then SymId.eof
  else if w = ":" then SymId.colon
  else if w = ";" then SymId.semicolon
  else if w = "->" then SymId.arrow
  else if w = "." then SymId.period
  else if w = "OFF" then SymId.off
  else if w = "ON" then SymId.on
  else if w = "DEVICE_LIST" then SymId.dlist
  else if w = "CONNECTION_LIST" then SymId.clist
  else if w = "MONITOR_LIST" then SymId.mlist
  else if w = "END" then SymId.end_
  else if w = "AND" then SymId.and_
  else if w = "NAND" then SymId.nand
  else if w = "OR" then SymId.or_
  else if w = "NOR" then SymId.nor
  else if w = "XOR" then SymId.xor_
  else if w = "DTYPE" then SymId.dtype
  else if w = "CLOCK" then SymId.clock
  else if w = "SWITCH" then SymId.switch
  else if w = "SIGGEN" then SymId.siggen
  else SymId.str w

/-- The digit-collecting loop of Scanner.get_symbol, with fuel (one
character per iteration, wrapper fuel never exhausted). -/
def collect_digitsF : Nat → String → Option Char × ScanSt → String × (Option Char × ScanSt)
  | 0, acc, s => (acc, s)
  | fuel + 1, acc, s =>
    match s.1 with
    | some c =>
      if c.isDigit then collect_digitsF fuel (acc.push c) (gnc s.2)
      else (acc, s)
    | none => (acc, s)

def collect_digits (s : Option Char × ScanSt) : String × (Option Char × ScanSt) :=
  collect_digitsF (s.2.input.length + 2) "" s

/-- The word-collecting loop of Scanner.get_symbol (letters, digits,
underscore), with fuel. -/
def collect_wordF : Nat → String → Option Char × ScanSt → String × (Option Char × ScanSt)
  | 0, acc, s => (acc, s)
  | fuel + 1, acc, s =>
    match s.1 with
    | some c =>
      if c.isAlphanum ∨ c = '_' then collect_wordF fuel (acc.push c) (gnc s.2)
      else (acc, s)
    | none => (acc, s)

def collect_word (s : Option Char × ScanSt) : String × (Option Char × ScanSt) :=
  collect_wordF (s.2.input.length + 2) "" s

/-- Scanner.get_symbol: skip whitespace and comments, then form the next
symbol, recording the line/column of its first character. -/
def scanner_get_symbol (s0 : Option Char × ScanSt) : Symbol × (Option Char × ScanSt) :=
  match s0.1 with
  | none => (⟨none, some SymId.eof, s0.2.line, s0.2.col⟩, s0)
  | some c0 =>
    let s := if c0.isWhitespace then gnnwc s0.2 else s0
    let s := comment_check s
    let colnum := s.2.col
    let linenum := s.2.line
    match s.1 with
    | none => (⟨none, some SymId.eof, s.2.line, s.2.col⟩, s)
    | some c =>
      if c.isDigit then
        let r := collect_digits s
        (⟨some NUMBER, some (lookup_str r.1), linenum, colnum⟩, r.2)
      else if c.isAlpha then
        let r := collect_word s
        let id := lookup_str r.1
        let ty :=
          if idMem (some id) keywords_list then KEYWORDS
          else if idMem (some id) device_keywords then DEVICETYPE
          else if idMem (some id) initial_states then PROPERTY
          else NAMES
        (⟨some ty, some id, linenum, colnum⟩, r.2)
      else
        let tr : (Option Nat × Option SymId) × (Option Char × ScanSt) :=
          if c = ':' then ((some CL, some SymId.colon), s)
          else if c = ';' then ((some SCL, some SymId.semicolon), s)
          else if c = '.' then ((some PE, some SymId.period), s)
          else if c = '-' then
            let r := gnc s.2
            (if r.1 = some '>' then ((some AR, some SymId.arrow), r)
             else ((none, none), r))
          else ((none, some (SymId.str (String.singleton c))), s)
        let r2 := gnc tr.2.2
        (⟨tr.1.1, tr.1.2, linenum, colnum⟩, r2)

/-- Run the scanner to the end of the input, producing the token stream the
parser consumes (the parser-level get_symbol supplies the EOF symbol once
this stream is exhausted), with fuel (each token consumes at least one
character or the pending one). -/
def tokenizeF : Nat → Option Char × ScanSt → List Symbol
  | 0, _ => []
  | fuel + 1, s =>
    let r := scanner_get_symbol s
    if r.1.id = some SymId.eof then []
    else r.1 :: tokenizeF fuel r.2

def tokenize (s : Option Char × ScanSt) : List Symbol :=
  tokenizeF (s.2.input.length + 2) s

/-- The scanner state on a freshly opened definition file (current_char is
a single space, line 1, column 0). -/
def initScan (text : String) : Option Char × ScanSt :=
  (some ' ', { input := text.toList, line := 1, col := 0, commentSwitch := 0 })

/-- A fresh parser over a token stream: empty collaborator states and error
accumulator, as built by the test fixtures. -/
def initPState (toks : List Symbol) : PState :=
  { scanner := toks, symbol := eofSymbol, error_count := 0, error_messages := [],
    missing_end := false, reached_eof := false,
    devices := ⟨[], 0⟩, network := ⟨[], 0⟩, monitors := ⟨[], 0⟩, printed := [] }

/-- Parse a definition-file text end to end: scan it into tokens, then run
parse_network on a fresh parser. -/
def parse_text (text : String) : Bool × PState :=
  parse_network (initPState (tokenize (initScan text)))

/-- The number of accumulated error entries carrying a given message. -/
def count_msg (msg : String) (l : List (String × Nat × Nat)) : Nat :=
  (l.filter (fun e => e.1 == msg)).length

/-- The report entry appended for an UNCONNECTED_INPUTS error (raised with
no recovery, so no "Parsing resumed" suffix). -/
def unc_entry : String :=
  error_message ErrCode.UNCONNECTED_INPUTS none ++ "***\n"

/-- A Device Model holding SWITCH sw1 and DTYPE d1 (concrete input for the
pin-suffix claims). -/
def c4_devices : Devices :=
  (make_device
    (make_device ⟨[], 0⟩ (some (SymId.str "sw1")) (some SymId.switch)
      (some (PropV.level true))).2
    (some (SymId.str "d1")) (some SymId.dtype) none).2

/-- A parser state whose current symbol is the output reference sw1 and
whose next symbol is a period: a pin suffix on a non-D_TYPE output. -/
def c4_state : PState :=
  { initPState [⟨some PE, some SymId.period, 1, 4⟩,
      ⟨some SCL, some SymId.semicolon, 1, 5⟩] with
    devices := c4_devices
    symbol := ⟨some NAMES, some (SymId.str "sw1"), 1, 1⟩ }

/-- A Device Model holding SWITCH sw1 and a three-input AND gate g1
(concrete input for the unconnected-inputs claim). -/
def c7_devices : Devices :=
  (make_device
    (make_device ⟨[], 0⟩ (some (SymId.str "sw1")) (some SymId.switch)
      (some (PropV.level false))).2
    (some (SymId.str "g1")) (some SymId.and_) (some (PropV.num 3))).2

/-- A parser positioned at a connection list that wires only two of g1's
three inputs. -/
def c7_state : PState :=
  { initPState (tokenize (initScan
      "CONNECTION_LIST:\nsw1 -> g1.I1;\nsw1 -> g1.I2;\nEND\n")) with
    devices := c7_devices }

/-- A parser positioned at an empty monitor list. -/
def c8_state : PState :=
  initPState (tokenize (initScan "MONITOR_LIST:\nEND\n"))

/-- An abstract device property of a §6 definition file: an initial state
OFF/ON or a number token (carried as its digit string). -/
inductive PropTok where
  | onOff (high : Bool)
  | num (s : String)
deriving DecidableEq, Repr

/-- An abstract device declaration of the DEVICE_LIST section. -/
structure DeviceDecl where
  kind : SymId
  dname : String
  prop : Option PropTok
deriving DecidableEq, Repr

/-- An abstract output reference: a device name with an optional pin name
(present exactly for DTYPE devices, which expose Q and QBAR). -/
structure OutRef where
  dev : String
  pin : Option String
deriving DecidableEq, Repr

/-- An abstract connection item: an output reference wired into the named
input pin of the destination device. -/
structure ConnDecl where
  src : OutRef
  dstDev : String
  dstPin : String
deriving DecidableEq, Repr

/-- An abstract §6 definition file: the three ordered sections. -/
structure Program where
  devs : List DeviceDecl
  conns : List ConnDecl
  mons : List OutRef
deriving DecidableEq, Repr

/-- The NAMES token of an identifier. -/
def nameTok (s : String) : Symbol := ⟨some NAMES, some (SymId.str s), 0, 0⟩

/-- A KEYWORDS token. -/
def keyTok (k : SymId) : Symbol := ⟨some KEYWORDS, some k, 0, 0⟩

/-- The DEVICETYPE token heading a device declaration. -/
def devTok (d : DeviceDecl) : Symbol := ⟨some DEVICETYPE, some d.kind, 0, 0⟩

def clTok : Symbol := ⟨some CL, some SymId.colon, 0, 0⟩
def sclTok : Symbol := ⟨some SCL, some SymId.semicolon, 0, 0⟩
def arTok : Symbol := ⟨some AR, some SymId.arrow, 0, 0⟩
def peTok : Symbol := ⟨some PE, some SymId.period, 0, 0⟩
def endTok : Symbol := keyTok SymId.end_

/-- The token the scanner produces for a property. -/
def renderProp : PropTok → Symbol
  | PropTok.onOff false => ⟨some PROPERTY, some SymId.off, 0, 0⟩
  | PropTok.onOff true => ⟨some PROPERTY, some SymId.on, 0, 0⟩
  | PropTok.num s => ⟨some NUMBER, some (SymId.str s), 0, 0⟩

/-- The tokens of a device declaration after its DEVICETYPE keyword. -/
def renderDeviceTail (d : DeviceDecl) : List Symbol :=
  nameTok d.dname ::
    ((match d.prop with
      | none => []
      | some pt => [renderProp pt]) ++ [sclTok])

/-- The tokens of one device declaration. -/
def renderDevice (d : DeviceDecl) : List Symbol := devTok d :: renderDeviceTail d

/-- The pin-suffix tokens of an output reference. -/
def renderOutTail (o : OutRef) : List Symbol :=
  match o.pin with
  | none => []
  | some pn => [peTok, nameTok pn]

/-- The tokens of a connection item after its leading device name. -/
def renderConnTail (c : ConnDecl) : List Symbol :=
  renderOutTail c.src ++
    arTok :: nameTok c.dstDev :: peTok :: nameTok c.dstPin :: [sclTok]

/-- The tokens of one connection item. -/
def renderConn (c : ConnDecl) : List Symbol := nameTok c.src.dev :: renderConnTail c

/-- The tokens of a monitor item after its leading device name. -/
def renderMonTail (o : OutRef) : List Symbol := renderOutTail o ++ [sclTok]

/-- The tokens of one monitor item. -/
def renderMon (o : OutRef) : List Symbol := nameTok o.dev :: renderMonTail o

/-- The token stream of a whole §6 definition file: the three headed and
END-terminated sections in order. -/
def renderProgram (P : Program) : List Symbol :=
  keyTok SymId.dlist :: clTok ::
    ((P.devs.map renderDevice).flatten ++ endTok ::
      keyTok SymId.clist :: clTok ::
        ((P.conns.map renderConn).flatten ++ endTok ::
          keyTok SymId.mlist :: clTok ::
            ((P.mons.map renderMon).flatten ++ [endTok])))

/-- The Device Model entry a valid declaration constructs (the device
make_device adds for it). -/
def mkDevice (d : DeviceDecl) : Device :=
  match d.kind, d.prop with
  | SymId.switch, some (PropTok.onOff b) =>
    ⟨some SymId.switch, some (PropV.level b), [], [none]⟩
  | SymId.clock, some (PropTok.num s) =>
    ⟨some SymId.clock, some (PropV.num (strToNat s)), [], [none]⟩
  | SymId.siggen, some (PropTok.num s) =>
    ⟨some SymId.siggen, some (PropV.bits s), [], [none]⟩
  | SymId.xor_, _ => ⟨some SymId.xor_, none, input_pins_gate 2, [none]⟩
  | SymId.dtype, _ => ⟨some SymId.dtype, none, dtype_inputs, dtype_outputs⟩
  | k, some (PropTok.num s) =>
    ⟨some k, some (PropV.num (strToNat s)), input_pins_gate (strToNat s), [none]⟩
  | k, _ => ⟨some k, none, [], [none]⟩

/-- Validity of one device declaration, mirroring the checks of make_device:
the property shape matches the device kind and its value is in range. -/
def devVal (d : DeviceDecl) : Bool :=
  match d.kind, d.prop with
  | SymId.switch, some (PropTok.onOff _) => true
  | SymId.clock, some (PropTok.num s) => decide (1 ≤ strToNat s)
  | SymId.siggen, some (PropTok.num s) =>
    decide (1 ≤ s.length) && s.toList.all (fun c => c = '0' ∨ c = '1')
  | SymId.and_, some (PropTok.num s) => decide (1 ≤ strToNat s ∧ strToNat s ≤ 16)
  | SymId.nand, some (PropTok.num s) => decide (1 ≤ strToNat s ∧ strToNat s ≤ 16)
  | SymId.or_, some (PropTok.num s) => decide (1 ≤ strToNat s ∧ strToNat s ≤ 16)
  | SymId.nor, some (PropTok.num s) => decide (1 ≤ strToNat s ∧ strToNat s ≤ 16)
  | SymId.xor_, none => true
  | SymId.dtype, none => true
  | _, _ => false

/-- A string the names module interns as an ordinary identifier, not as one
of the reserved words (what the scanner delivers as a NAMES token). -/
def plainName (s : String) : Bool := lookup_str s == SymId.str s

/-- A non-empty digit string (what the scanner delivers as a NUMBER
token). -/
def numStr (s : String) : Bool :=
  decide (1 ≤ s.length) && s.toList.all (fun c => c.isDigit)

/-- The §6 surface conditions on a declaration's strings: the device name is
an ordinary identifier and a numeric property is a digit string. -/
def devStrings (d : DeviceDecl) : Bool :=
  plainName d.dname &&
    (match d.prop with
     | some (PropTok.num s) => numStr s
     | _ => true)

/-- The declaration a device name refers to. -/
def findDecl (ds : List DeviceDecl) (s : String) : Option DeviceDecl :=
  ds.find? (fun d => d.dname == s)

/-- Validity of an output reference against the declared devices: the device
is declared; a DTYPE output must name Q or QBAR, every other device has a
single unnamed output and takes no pin suffix. -/
def outRefVal (ds : List DeviceDecl) (o : OutRef) : Bool :=
  match findDecl ds o.dev with
  | none => false
  | some d =>
    match o.pin with
    | none => !(d.kind == SymId.dtype)
    | some pn => (d.kind == SymId.dtype) && (pn == "Q" || pn == "QBAR")

/-- Validity of a connection item: a valid output reference wired into an
existing input pin of a declared device. -/
def connVal (ds : List DeviceDecl) (c : ConnDecl) : Bool :=
  outRefVal ds c.src &&
    (match findDecl ds c.dstDev with
     | none => false
     | some d => (mkDevice d).inputs.contains (SymId.str c.dstPin))

/-- The input-pin target of a connection item, as keyed in the Connection
Graph. -/
def tgt (c : ConnDecl) : Option SymId × Option SymId :=
  (some (SymId.str c.dstDev), some (SymId.str c.dstPin))

/-- The (device, port) key of an output reference, as stored in the
Connection Graph and the Recorder. -/
def monEntry (o : OutRef) : Option SymId × Option SymId :=
  (some (SymId.str o.dev), o.pin.map (fun pn => SymId.str pn))

/-- The Connection Graph entry a connection item adds. -/
def connEntry (c : ConnDecl) :
    (Option SymId × Option SymId) × (Option SymId × Option SymId) :=
  (tgt c, monEntry c.src)

/-- Full wiring: every input pin of every declared device is the target of
some connection item. -/
def coverage (ds : List DeviceDecl) (cs : List ConnDecl) : Bool :=
  ds.all (fun d =>
    (mkDevice d).inputs.all (fun pin =>
      cs.any (fun c => c.dstDev == d.dname && SymId.str c.dstPin == pin)))

/-- Validity of a whole §6 program: distinct, ordinary device names with
valid declarations; valid connection items with pairwise distinct targets
that cover every input pin of every device; and at least one monitor point,
all valid and pairwise distinct. -/
def progValid (P : Program) : Bool :=
  decide ((P.devs.map (fun d => d.dname)).Nodup) &&
  P.devs.all (fun d => devVal d && devStrings d) &&
  P.conns.all (fun c => connVal P.devs c && plainName c.src.dev &&
    (match c.src.pin with | none => true | some pn => plainName pn) &&
    plainName c.dstDev && plainName c.dstPin) &&
  decide ((P.conns.map tgt).Nodup) &&
  coverage P.devs P.conns &&
  !P.mons.isEmpty &&
  P.mons.all (fun o => outRefVal P.devs o && plainName o.dev &&
    (match o.pin with | none => true | some pn => plainName pn)) &&
  decide ((P.mons.map monEntry).Nodup)

/-- The Device Model state after one valid declaration is made. -/
def devAfter1 (dv : Devices) (d : DeviceDecl) : Devices :=
  ⟨dv.devmap ++ [(some (SymId.str d.dname), mkDevice d)], dv.makeCalls + 1⟩

/-- The Device Model state after a list of valid declarations. -/
def devsAfter (dv : Devices) (ds : List DeviceDecl) : Devices :=
  ds.foldl devAfter1 dv

/-- The Connection Graph state after one valid connection item is made. -/
def netAfter1 (nw : Network) (c : ConnDecl) : Network :=
  ⟨nw.connections ++ [connEntry c], nw.makeCalls + 1⟩

/-- The Connection Graph state after a list of valid connection items. -/
def netsAfter (nw : Network) (cs : List ConnDecl) : Network :=
  cs.foldl netAfter1 nw

/-- The Recorder state after one valid monitor item is made. -/
def monAfter1 (mo : Monitors) (o : OutRef) : Monitors :=
  ⟨mo.monitors_dictionary ++ [monEntry o], mo.makeCalls + 1⟩

/-- The Recorder state after a list of valid monitor items. -/
def monsAfter (mo : Monitors) (os : List OutRef) : Monitors :=
  os.foldl monAfter1 mo

/-- The semantic facts about a connection item the parser checks against the
built Device Model: source device exists, its referenced point is one of its
output ports (named exactly for DTYPE), and the destination pin is an input
pin of an existing device. -/
def outOK (dv : Devices) (o : OutRef) : Bool :=
  match get_device dv (some (SymId.str o.dev)), o.pin with
  | some d, none => !(d.device_kind == some SymId.dtype) && d.outputs.contains none
  | some d, some pn =>
    (d.device_kind == some SymId.dtype) && d.outputs.contains (some (SymId.str pn))
  | none, _ => false

def connOK (dv : Devices) (c : ConnDecl) : Bool :=
  outOK dv c.src &&
    (match get_device dv (some (SymId.str c.dstDev)) with
     | some d => d.inputs.contains (SymId.str c.dstPin)
     | none => false)

/-- The §6 minimal example as a program, with the numeric pin suffixes g1.1
and g1.2 replaced by the gate's declared input pin names g1.I1 and g1.I2. -/
def exampleProgram : Program :=
  { devs := [⟨SymId.switch, "sw1", some (PropTok.onOff false)⟩,
             ⟨SymId.and_, "g1", some (PropTok.num "2")⟩]
    conns := [⟨⟨"sw1", none⟩, "g1", "I1"⟩, ⟨⟨"sw1", none⟩, "g1", "I2"⟩]
    mons := [⟨"g1", none⟩] }

/-- The §6 minimal example as a definition-file text, with the numeric pin
suffixes the spec uses. -/
def exampleText : String :=
  "DEVICE_LIST:\nSWITCH sw1 OFF;\nAND g1 2;\nEND\nCONNECTION_LIST:\nsw1 -> g1.1;\nsw1 -> g1.2;\nEND\nMONITOR_LIST:\ng1;\nEND\n"

/-- The same text with the identifier pin names g1.I1 and g1.I2. -/
def exampleTextFixed : String :=
  "DEVICE_LIST:\nSWITCH sw1 OFF;\nAND g1 2;\nEND\nCONNECTION_LIST:\nsw1 -> g1.I1;\nsw1 -> g1.I2;\nEND\nMONITOR_LIST:\ng1;\nEND\n"

/-- Error accounting between two parser states: the error count grows by
exactly as much as the message list, and nothing is printed.  Every parser
operation except error_report satisfies this relation. -/
def Pres (p q : PState) : Prop :=
  q.error_count + p.error_messages.length =
    p.error_count + q.error_messages.length ∧
  q.printed = p.printed

theorem pres_refl (p : PState) : Pres p p := ⟨rfl, rfl⟩

theorem pres_trans {p q r : PState} (h1 : Pres p q) (h2 : Pres q r) : Pres p r := by
  obtain ⟨a1, b1⟩ := h1
  obtain ⟨a2, b2⟩ := h2
  exact ⟨by omega, b2.trans b1⟩

@[simp] theorem get_symbol_error_count (p : PState) :
    (get_symbol p).error_count = p.error_count := by
  unfold get_symbol; cases p.scanner <;> rfl

@[simp] theorem get_symbol_error_messages (p : PState) :
    (get_symbol p).error_messages = p.error_messages := by
  unfold get_symbol; cases p.scanner <;> rfl

@[simp] theorem get_symbol_printed (p : PState) :
    (get_symbol p).printed = p.printed := by
  unfold get_symbol; cases p.scanner <;> rfl

@[simp] theorem get_symbol_devices (p : PState) :
    (get_symbol p).devices = p.devices := by
  unfold get_symbol; cases p.scanner <;> rfl

@[simp] theorem get_symbol_network (p : PState) :
    (get_symbol p).network = p.network := by
  unfold get_symbol; cases p.scanner <;> rfl

@[simp] theorem get_symbol_monitors (p : PState) :
    (get_symbol p).monitors = p.monitors := by
  unfold get_symbol; cases p.scanner <;> rfl

@[simp] theorem get_symbol_missing_end (p : PState) :
    (get_symbol p).missing_end = p.missing_end := by
  unfold get_symbol; cases p.scanner <;> rfl

@[simp] theorem get_symbol_reached_eof (p : PState) :
    (get_symbol p).reached_eof = p.reached_eof := by
  unfold get_symbol; cases p.scanner <;> rfl

@[simp] theorem error_snd_count (et : ErrCode) (adv : Bool) (va : Option Vararg)
    (p : PState) : (error et adv va p).2.error_count = p.error_count + 1 := by
  unfold error
  dsimp only
  split
  · rcases hsk : skip_to (stopping_symbols et) p.symbol p.scanner with ⟨a, b⟩
    simp only [hsk]
    split
    · unfold get_symbol; cases b <;> rfl
    · rfl
  · rfl

@[simp] theorem error_snd_messages_length (et : ErrCode) (adv : Bool)
    (va : Option Vararg) (p : PState) :
    (error et adv va p).2.error_messages.length = p.error_messages.length + 1 := by
  unfold error
  dsimp only
  split
  · rcases hsk : skip_to (stopping_symbols et) p.symbol p.scanner with ⟨a, b⟩
    simp only [hsk]
    split
    · unfold get_symbol; cases b <;> simp
    · simp
  · simp

@[simp] theorem error_snd_printed (et : ErrCode) (adv : Bool) (va : Option Vararg)
    (p : PState) : (error et adv va p).2.printed = p.printed := by
  unfold error
  dsimp only
  split
  · rcases hsk : skip_to (stopping_symbols et) p.symbol p.scanner with ⟨a, b⟩
    simp only [hsk]
    split
    · unfold get_symbol; cases b <;> rfl
    · rfl
  · rfl

@[simp] theorem error_snd_devices (et : ErrCode) (adv : Bool) (va : Option Vararg)
    (p : PState) : (error et adv va p).2.devices = p.devices := by
  unfold error
  dsimp only
  split
  · rcases hsk : skip_to (stopping_symbols et) p.symbol p.scanner with ⟨a, b⟩
    simp only [hsk]
    split
    · unfold get_symbol; cases b <;> rfl
    · rfl
  · rfl

@[simp] theorem error_snd_network (et : ErrCode) (adv : Bool) (va : Option Vararg)
    (p : PState) : (error et adv va p).2.network = p.network := by
  unfold error
  dsimp only
  split
  · rcases hsk : skip_to (stopping_symbols et) p.symbol p.scanner with ⟨a, b⟩
    simp only [hsk]
    split
    · unfold get_symbol; cases b <;> rfl
    · rfl
  · rfl

@[simp] theorem error_snd_monitors (et : ErrCode) (adv : Bool) (va : Option Vararg)
    (p : PState) : (error et adv va p).2.monitors = p.monitors := by
  unfold error
  dsimp only
  split
  · rcases hsk : skip_to (stopping_symbols et) p.symbol p.scanner with ⟨a, b⟩
    simp only [hsk]
    split
    · unfold get_symbol; cases b <;> rfl
    · rfl
  · rfl

/-- The error-accounting view of a parser state: the difference between the
error count and the number of accumulated messages, together with what has
been printed.  Every parser operation except error_report preserves it; in
particular each error call adds one to both the count and the message list. -/
def acct (p : PState) : Int × List (String × Nat × Nat) :=
  ((p.error_count : Int) - (p.error_messages.length : Int), p.printed)

@[simp] theorem acct_get_symbol (p : PState) : acct (get_symbol p) = acct p := by
  unfold acct; simp

@[simp] theorem acct_error (et : ErrCode) (adv : Bool) (va : Option Vararg)
    (p : PState) : acct (error et adv va p).2 = acct p := by
  unfold acct
  simp

@[simp] theorem acct_set_devices (q : PState) (d : Devices) :
    acct { q with devices := d } = acct q := rfl

@[simp] theorem acct_set_network (q : PState) (n : Network) :
    acct { q with network := n } = acct q := rfl

@[simp] theorem acct_set_monitors (q : PState) (m : Monitors) :
    acct { q with monitors := m } = acct q := rfl

@[simp] theorem acct_set_missing_end (q : PState) (b : Bool) :
    acct { q with missing_end := b } = acct q := rfl

@[simp] theorem acct_check_keyword (k : SymId) (p : PState) :
    acct (check_keyword k p).2 = acct p := by
  unfold check_keyword; dsimp only; repeat' split
  all_goals simp only [acct_get_symbol, acct_error]

@[simp] theorem acct_check_end (er : Bool) (p : PState) :
    acct (check_end er p) = acct p := by
  unfold check_end; repeat' split
  all_goals simp only [acct_get_symbol, acct_error]

@[simp] theorem acct_check_io (k : Nat) (p : PState) :
    acct (check_io k p).2 = acct p := by
  unfold check_io; dsimp only; repeat' split
  all_goals simp only [acct_get_symbol, acct_error]

@[simp] theorem acct_get_io (k : Nat) (p : PState) :
    acct (get_io k p).2 = acct p := by
  unfold get_io; dsimp only; repeat' split
  all_goals simp only [acct_get_symbol, acct_error]

@[simp] theorem acct_device (p : PState) : acct (device p).2 = acct p := by
  unfold device; dsimp only; repeat' split
  all_goals
    simp only [acct_get_symbol, acct_error, acct_set_devices]

@[simp] theorem acct_connect (p : PState) : acct (connect p).2 = acct p := by
  unfold connect; dsimp only; repeat' split
  all_goals
    simp only [acct_get_symbol, acct_error, acct_set_network, acct_get_io]

@[simp] theorem acct_monitor (p : PState) : acct (monitor p).2 = acct p := by
  unfold monitor; dsimp only; repeat' split
  all_goals
    simp only [acct_get_symbol, acct_error, acct_set_monitors, acct_get_io]

@[simp] theorem acct_connect_syn (p : PState) :
    acct (connect_syn p) = acct p := by
  unfold connect_syn; dsimp only; repeat' split
  all_goals simp only [acct_get_symbol, acct_error, acct_check_io]

@[simp] theorem acct_monitor_syn (p : PState) :
    acct (monitor_syn p) = acct p := by
  unfold monitor_syn; dsimp only; repeat' split
  all_goals simp only [acct_get_symbol, acct_error, acct_check_io]

theorem acct_build_list (et : Nat) (m : PState → Bool × PState)
    (hm : ∀ q, acct (m q).2 = acct q) :
    ∀ (fuel : Nat) (success : Bool) (p : PState),
      acct (build_list et m fuel success p).2 = acct p := by
  intro fuel
  induction fuel with
  | zero => intro success p; rfl
  | succ n ih =>
    intro success p
    unfold build_list
    dsimp only
    repeat' split
    · rw [ih]; exact hm p
    · simp only [acct_set_missing_end, acct_error]
    · rw [ih]; simp only [acct_error]
    · rfl

theorem acct_check_syn (et : Nat) (m : PState → PState)
    (hm : ∀ q, acct (m q) = acct q) :
    ∀ (fuel : Nat) (p : PState), acct (check_syn et m fuel p) = acct p := by
  intro fuel
  induction fuel with
  | zero => intro p; rfl
  | succ n ih =>
    intro p
    unfold check_syn
    dsimp only
    repeat' split
    · rw [ih]; exact hm p
    · simp only [acct_set_missing_end, acct_error]
    · rw [ih]; simp only [acct_error]
    · rfl

@[simp] theorem acct_devicelist (p : PState) : acct (devicelist p).2 = acct p := by
  unfold devicelist
  dsimp only
  repeat' split
  all_goals
    simp only [acct_check_keyword, acct_check_end, acct_set_missing_end,
      acct_build_list DEVICETYPE device acct_device]

@[simp] theorem acct_connectionlist (sc : Bool) (p : PState) :
    acct (connectionlist sc p).2 = acct p := by
  unfold connectionlist
  dsimp only
  repeat' split
  all_goals
    simp only [acct_check_keyword, acct_check_end, acct_set_missing_end, acct_error,
      acct_build_list NAMES connect acct_connect,
      acct_check_syn NAMES connect_syn acct_connect_syn]

@[simp] theorem acct_monitorlist (sc : Bool) (p : PState) :
    acct (monitorlist sc p) = acct p := by
  unfold monitorlist
  dsimp only
  repeat' split
  all_goals
    simp only [acct_check_keyword, acct_check_end, acct_error,
      acct_build_list NAMES monitor acct_monitor,
      acct_check_syn NAMES monitor_syn acct_monitor_syn]

/-- The constructed-entity view of a parser state: the Device Model,
Connection Graph and Signal-Trace Recorder states.  The syntax-only pass
preserves it: no entity construction happens there. -/
def world (p : PState) : Devices × Network × Monitors :=
  (p.devices, p.network, p.monitors)

@[simp] theorem world_get_symbol (p : PState) : world (get_symbol p) = world p := by
  unfold world; simp

@[simp] theorem world_error (et : ErrCode) (adv : Bool) (va : Option Vararg)
    (p : PState) : world (error et adv va p).2 = world p := by
  unfold world; simp

@[simp] theorem world_set_missing_end (q : PState) (b : Bool) :
    world { q with missing_end := b } = world q := rfl

@[simp] theorem world_check_keyword (k : SymId) (p : PState) :
    world (check_keyword k p).2 = world p := by
  unfold check_keyword; dsimp only; repeat' split
  all_goals simp only [world_get_symbol, world_error]

@[simp] theorem world_check_end (er : Bool) (p : PState) :
    world (check_end er p) = world p := by
  unfold check_end; repeat' split
  all_goals simp only [world_get_symbol, world_error]

@[simp] theorem world_check_io (k : Nat) (p : PState) :
    world (check_io k p).2 = world p := by
  unfold check_io; dsimp only; repeat' split
  all_goals simp only [world_get_symbol, world_error]

@[simp] theorem world_connect_syn (p : PState) :
    world (connect_syn p) = world p := by
  unfold connect_syn; dsimp only; repeat' split
  all_goals simp only [world_get_symbol, world_error, world_check_io]

@[simp] theorem world_monitor_syn (p : PState) :
    world (monitor_syn p) = world p := by
  unfold monitor_syn; dsimp only; repeat' split
  all_goals simp only [world_get_symbol, world_error, world_check_io]

theorem world_check_syn (et : Nat) (m : PState → PState)
    (hm : ∀ q, world (m q) = world q) :
    ∀ (fuel : Nat) (p : PState), world (check_syn et m fuel p) = world p := by
  intro fuel
  induction fuel with
  | zero => intro p; rfl
  | succ n ih =>
    intro p
    unfold check_syn
    dsimp only
    repeat' split
    · rw [ih]; exact hm p
    · simp only [world_set_missing_end, world_error]
    · rw [ih]; simp only [world_error]
    · rfl

@[simp] theorem world_connectionlist_false (p : PState) :
    world (connectionlist false p).2 = world p := by
  unfold connectionlist
  dsimp only
  repeat' split
  all_goals
    simp_all only [Bool.false_eq_true, world_check_keyword, world_check_end,
      world_set_missing_end,
      world_check_syn NAMES connect_syn world_connect_syn]

@[simp] theorem world_monitorlist_false (p : PState) :
    world (monitorlist false p) = world p := by
  unfold monitorlist
  dsimp only
  repeat' split
  all_goals
    simp_all only [Bool.false_eq_true, world_check_keyword, world_check_end,
      world_error,
      world_check_syn NAMES monitor_syn world_monitor_syn]

@[simp] theorem world_error_report (p : PState) :
    world (error_report p) = world p := rfl

@[simp] theorem error_report_printed (p : PState) :
    (error_report p).printed = p.printed ++ p.error_messages := rfl

@[simp] theorem error_report_symbol (p : PState) :
    (error_report p).symbol = p.symbol := rfl

@[simp] theorem error_report_error_count (p : PState) :
    (error_report p).error_count = p.error_count := rfl

@[simp] theorem error_report_error_messages (p : PState) :
    (error_report p).error_messages = p.error_messages := rfl

/-- parse_network in closed form: there is a state q reached after the three
sections (which preserves the error accounting) such that the result is
(true, q) when q sits at EOF with no errors, and (false, error_report q)
otherwise. -/
theorem parse_network_shape (p : PState) :
    ∃ q, acct q = acct p ∧
      parse_network p =
        (if q.symbol.id = some SymId.eof ∧ q.error_count = 0 then (true, q)
         else (false, error_report q)) := by
  unfold parse_network
  dsimp only
  refine ⟨_, ?_, rfl⟩
  repeat' split
  all_goals simp

/-- The entry appended by Parser.error carries the line and column of the
symbol current when the error was raised. -/
theorem error_snd_messages (et : ErrCode) (adv : Bool) (va : Option Vararg)
    (p : PState) :
    ∃ msg, (error et adv va p).2.error_messages =
      p.error_messages ++ [(msg, p.symbol.linenum, p.symbol.colnum)] := by
  unfold error
  dsimp only
  split
  · rcases hsk : skip_to (stopping_symbols et) p.symbol p.scanner with ⟨a, b⟩
    simp only [hsk]
    split
    · unfold get_symbol
      cases b
      · exact ⟨_, rfl⟩
      · exact ⟨_, rfl⟩
    · exact ⟨_, rfl⟩
  · exact ⟨_, rfl⟩


/-- The symbol that recovery lands on always belongs to the stopping set,
provided the set contains EOF (the scanner supplies the EOF symbol once the
stream is exhausted). -/
theorem skip_to_mem (stops : List SymId) (h : SymId.eof ∈ stops) :
    ∀ (toks : List Symbol) (sym : Symbol),
      idMem (skip_to stops sym toks).1.id stops = true := by
  intro toks
  induction toks with
  | nil =>
    intro sym
    unfold skip_to
    split
    · simpa using ‹idMem sym.id stops = true›
    · simpa [eofSymbol, idMem] using h
  | cons t ts ih =>
    intro sym
    unfold skip_to
    split
    · simpa using ‹idMem sym.id stops = true›
    · exact ih t

/-- C3: parse_network returns True exactly when, after the three sections
have been processed, the current symbol is the EndOfFile token and the
accumulated error count is zero; otherwise it returns False and every
accumulated (message, line, column) error entry is reported (appended to the
displayed report), never raised as an exception (all operations here are
total functions on the parser state). -/
theorem claim_C3 (p : PState) :
    ((parse_network p).1 = true ↔
      ((parse_network p).2.symbol.id = some SymId.eof ∧
        (parse_network p).2.error_count = 0)) ∧
    ((parse_network p).1 = false →
      (parse_network p).2.printed =
        p.printed ++ (parse_network p).2.error_messages) ∧
    ((parse_network p).1 = true → (parse_network p).2.printed = p.printed) := by
  obtain ⟨q, hq, heq⟩ := parse_network_shape p
  have hprinted : q.printed = p.printed := congrArg Prod.snd hq
  rw [heq]
  split
  · rename_i h
    refine ⟨?_, ?_, ?_⟩
    · simpa using h
    · intro hf; simp at hf
    · intro _; simpa using hprinted
  · rename_i h
    refine ⟨?_, ?_, ?_⟩
    · constructor
      · intro hf; simp at hf
      · intro hc
        simp only [error_report_symbol, error_report_error_count] at hc
        exact absurd hc h
    · intro _
      simp [hprinted]
    · intro ht; simp at ht

/-- C10: every invocation of Parser.error increments the error count by
exactly one and appends exactly one (message, line, column) entry, recorded
at the line and column of the symbol current when the error was raised
(before recovery skipping); consequently, starting from a state whose error
count equals its number of messages, the two stay equal across a whole
parse_network run. -/
theorem claim_C10 (et : ErrCode) (adv : Bool) (va : Option Vararg) (p : PState) :
    ((error et adv va p).2.error_count = p.error_count + 1 ∧
      (∃ msg, (error et adv va p).2.error_messages =
        p.error_messages ++ [(msg, p.symbol.linenum, p.symbol.colnum)]) ∧
      (error et adv va p).2.error_messages.length = p.error_messages.length + 1) ∧
    (p.error_count = p.error_messages.length →
      (parse_network p).2.error_count =
        (parse_network p).2.error_messages.length) := by
  refine ⟨⟨error_snd_count et adv va p, error_snd_messages et adv va p,
    error_snd_messages_length et adv va p⟩, ?_⟩
  intro hinv
  obtain ⟨q, hq, heq⟩ := parse_network_shape p
  have hbal : (acct q).1 = (acct p).1 := congrArg Prod.fst hq
  unfold acct at hbal
  have hq2 : q.error_count = q.error_messages.length := by omega
  rw [heq]
  split
  · simpa using hq2
  · simpa using hq2

/-- C6: while building or syntax-checking a section item list, a symbol of
Keyword type or a ':' where an item or END was expected produces exactly one
"Expected either another item in list or the keyword END" error, abandons
the section immediately (the loop breaks with no further items attempted),
sets the missing_end flag and reports failure, without consuming the
offending symbol (the symbol and remaining stream are unchanged). -/
theorem claim_C6 (et : Nat) (m : PState → Bool × PState) (m2 : PState → PState)
    (fuel : Nat) (success : Bool) (p : PState)
    (h1 : p.symbol.type = some KEYWORDS ∨ p.symbol.type = some CL)
    (h2 : p.symbol.type ≠ some et)
    (h3 : p.symbol.id ≠ some SymId.end_)
    (h4 : p.symbol.id ≠ some SymId.eof) :
    build_list et m (fuel + 1) success p =
      (false,
        { p with
          error_count := p.error_count + 1
          error_messages := p.error_messages ++
            [(error_message ErrCode.END_ERROR none ++ "***\n",
              p.symbol.linenum, p.symbol.colnum)]
          missing_end := true }) ∧
    check_syn et m2 (fuel + 1) p =
      { p with
        error_count := p.error_count + 1
        error_messages := p.error_messages ++
          [(error_message ErrCode.END_ERROR none ++ "***\n",
            p.symbol.linenum, p.symbol.colnum)]
        missing_end := true } := by
  constructor
  · unfold build_list
    dsimp only
    rw [if_pos ⟨h3, h4⟩, if_neg h2, if_pos h1]
    rfl
  · unfold check_syn
    dsimp only
    rw [if_pos ⟨h3, h4⟩, if_neg h2, if_pos h1]
    rfl

/-- C5: every stopping set built by Parser.error contains the EndOfFile id;
on an error with recovery the parser skips to the first stopping symbol
(no skipping at all if the current symbol already stops), lands on a member
of the stopping set, consumes it and resumes at the following symbol unless
it is EOF, in which case the reached_eof flag is set and makes every
remaining section method return immediately without consuming symbols. -/
theorem claim_C5 (et : ErrCode) (va : Option Vararg) (p : PState) (sc : Bool)
    (stopSym : Symbol) (rest : List Symbol)
    (hsk : skip_to (stopping_symbols et) p.symbol p.scanner = (stopSym, rest)) :
    SymId.eof ∈ stopping_symbols et ∧
    (idMem p.symbol.id (stopping_symbols et) = true →
      (stopSym, rest) = (p.symbol, p.scanner)) ∧
    idMem stopSym.id (stopping_symbols et) = true ∧
    (stopSym.id ≠ some SymId.eof →
      (error et true va p).2.symbol =
        (get_symbol { p with symbol := stopSym, scanner := rest }).symbol ∧
      (error et true va p).2.scanner =
        (get_symbol { p with symbol := stopSym, scanner := rest }).scanner ∧
      (error et true va p).2.reached_eof = p.reached_eof) ∧
    (stopSym.id = some SymId.eof →
      (error et true va p).2.reached_eof = true ∧
      (error et true va p).2.symbol = stopSym ∧
      (error et true va p).2.scanner = rest) ∧
    (p.reached_eof = true →
      devicelist p = (false, p) ∧ connectionlist sc p = (true, p) ∧
      monitorlist sc p = p) := by
  have heof : SymId.eof ∈ stopping_symbols et := by
    cases et <;> simp [stopping_symbols]
  refine ⟨heof, ?_, ?_, ?_, ?_, ?_⟩
  · intro hmem
    rw [← hsk]
    unfold skip_to
    rw [if_pos hmem]
  · have := skip_to_mem (stopping_symbols et) heof p.scanner p.symbol
    rwa [hsk] at this
  · intro hne
    unfold error
    dsimp only
    rw [if_pos (rfl : (true : Bool) = true), hsk]
    dsimp only
    rw [if_pos hne]
    unfold get_symbol
    cases rest <;> exact ⟨rfl, rfl, rfl⟩
  · intro heq
    unfold error
    dsimp only
    rw [if_pos (rfl : (true : Bool) = true), hsk]
    dsimp only
    rw [if_neg (not_not_intro heq)]
    exact ⟨rfl, rfl, rfl⟩
  · intro hre
    refine ⟨?_, ?_, ?_⟩
    · unfold devicelist
      rw [if_pos hre]
    · unfold connectionlist
      rw [if_pos hre]
    · unfold monitorlist
      rw [if_pos hre]


/-- C4: in a connection or monitor item, an output reference accepts a
pin suffix only for D_TYPE devices (for any other device kind a '.' raises
the IDENTIFIER_PRESENT semantic error, recorded at the line and column of
the '.' token), while an input reference always requires a '.' (its absence
raises the syntax error expecting a period). -/
theorem claim_C4 (p : PState) (dev : Device)
    (hdev : get_device p.devices p.symbol.id = some dev) :
    (dev.device_kind ≠ some SymId.dtype →
      (get_symbol p).symbol.type = some PE →
      get_io OUTPUT p =
        ((none, none),
          (error ErrCode.IDENTIFIER_PRESENT true none (get_symbol p)).2) ∧
      (∃ msg, (get_io OUTPUT p).2.error_messages = p.error_messages ++
        [(msg, (get_symbol p).symbol.linenum, (get_symbol p).symbol.colnum)])) ∧
    (dev.device_kind = some SymId.dtype →
      (get_symbol p).symbol.type = some PE →
      (get_symbol (get_symbol p)).symbol.type = some NAMES →
      get_io OUTPUT p =
        ((p.symbol.id, (get_symbol (get_symbol p)).symbol.id),
          get_symbol (get_symbol (get_symbol p)))) ∧
    ((get_symbol p).symbol.type ≠ some PE →
      get_io INPUT p =
        ((none, none),
          (error ErrCode.SYNTAX true (some (Vararg.vid (some SymId.period)))
            (get_symbol p)).2)) := by
  refine ⟨?_, ?_, ?_⟩
  · intro hkind hpe
    have heq : get_io OUTPUT p =
        ((none, none),
          (error ErrCode.IDENTIFIER_PRESENT true none (get_symbol p)).2) := by
      unfold get_io
      dsimp only
      rw [hdev]
      dsimp only
      have hexp : ¬(OUTPUT = INPUT ∨ dev.device_kind = some SymId.dtype) := by
        rintro (h01 | hdt)
        · exact absurd h01 (by decide)
        · exact hkind hdt
      rw [if_pos hpe, if_neg hexp]
    refine ⟨heq, ?_⟩
    rw [heq]
    obtain ⟨msg, hm⟩ :=
      error_snd_messages ErrCode.IDENTIFIER_PRESENT true none (get_symbol p)
    exact ⟨msg, by rw [hm]; simp⟩
  · intro hkind hpe hnm
    unfold get_io
    dsimp only
    rw [hdev]
    dsimp only
    rw [if_pos hpe, if_pos (Or.inr hkind), if_pos hnm]
  · intro hnpe
    unfold get_io
    dsimp only
    rw [hdev]
    dsimp only
    rw [if_neg hnpe, if_pos (Or.inl rfl)]

theorem claim_C4_witness :
    get_io OUTPUT c4_state =
      ((none, none),
        (error ErrCode.IDENTIFIER_PRESENT true none (get_symbol c4_state)).2) :=
  (((claim_C4 c4_state
    ⟨some SymId.switch, some (PropV.level true), [], [none]⟩ (by decide)).1
    (by decide) (by decide)).1)

/-- C1: when the device list fails, parse_network traverses the remaining
sections with the syntax-only pass and performs no further entity
construction (the Device Model, Connection Graph and Recorder states —
including their make-call counters — are exactly those left by the device
list); when only the connection list fails, the monitor list alone is
traversed syntax-only and nothing is constructed after the connection list;
and the syntax-only section passes never change the constructed entities at
all. -/
theorem claim_C1 (p : PState) :
    ((devicelist (get_symbol p)).1 = false →
      world (parse_network p).2 = world (devicelist (get_symbol p)).2) ∧
    ((devicelist (get_symbol p)).1 = true →
      (connectionlist true (devicelist (get_symbol p)).2).1 = false →
      world (parse_network p).2 =
        world (connectionlist true (devicelist (get_symbol p)).2).2) ∧
    (∀ q, world (connectionlist false q).2 = world q ∧
      world (monitorlist false q) = world q) := by
  refine ⟨?_, ?_, fun q => ⟨world_connectionlist_false q, world_monitorlist_false q⟩⟩
  · intro hdl
    unfold parse_network
    dsimp only
    rw [if_pos (show ¬(devicelist (get_symbol p)).1 = true by simp [hdl])]
    split
    · simp
    · simp
  · intro hdl hcl
    unfold parse_network
    dsimp only
    rw [if_neg (show ¬¬(devicelist (get_symbol p)).1 = true by simp [hdl]),
        if_pos (show ¬(connectionlist true (devicelist (get_symbol p)).2).1 = true by
          simp [hcl])]
    split
    · simp
    · simp

theorem claim_C1_witness :
    world (parse_network (initPState [])).2 =
      world (devicelist (get_symbol (initPState []))).2 :=
  (claim_C1 (initPState [])).1 (by decide)

theorem claim_C3_witness :
    (parse_network (initPState [])).2.printed =
      (initPState []).printed ++ (parse_network (initPState [])).2.error_messages :=
  (claim_C3 (initPState [])).2.1 (by decide)

theorem claim_C5_witness :
    SymId.eof ∈ stopping_symbols ErrCode.SYNTAX ∧
    (error ErrCode.SYNTAX true none (initPState [])).2.reached_eof = true :=
  have h := claim_C5 ErrCode.SYNTAX none (initPState []) true eofSymbol []
    (by decide)
  ⟨h.1, (h.2.2.2.2.1 (by decide)).1⟩

theorem claim_C6_witness :
    build_list DEVICETYPE device 1 true
      { initPState [] with symbol := ⟨some KEYWORDS, some SymId.clist, 3, 5⟩ } =
      (false,
        { { initPState [] with symbol := ⟨some KEYWORDS, some SymId.clist, 3, 5⟩ } with
          error_count := 1
          error_messages :=
            [(error_message ErrCode.END_ERROR none ++ "***\n", 3, 5)]
          missing_end := true }) :=
  (claim_C6 DEVICETYPE device monitor_syn 0 true
    { initPState [] with symbol := ⟨some KEYWORDS, some SymId.clist, 3, 5⟩ }
    (Or.inl rfl) (by decide) (by decide) (by decide)).1

theorem claim_C10_witness :
    (parse_network (initPState [])).2.error_count =
      (parse_network (initPState [])).2.error_messages.length :=
  (claim_C10 ErrCode.NO_EOF false none (initPState [])).2 (by decide)


/-- check_end never adds an UNCONNECTED_INPUTS entry: its only error is
END_ERROR, whose message is longer than the UNCONNECTED_INPUTS entry. -/
theorem check_end_unc_count (er : Bool) (q : PState) :
    count_msg unc_entry (check_end er q).error_messages =
      count_msg unc_entry q.error_messages := by
  have hne : ∀ m : String, unc_entry.length < m.length → (m == unc_entry) = false := by
    intro m hm
    rw [beq_eq_false_iff_ne]
    intro h
    rw [h] at hm
    omega
  have happ : ∀ (l : List (String × Nat × Nat)) (m : String) (a c : Nat),
      (m == unc_entry) = false →
      count_msg unc_entry (l ++ [(m, a, c)]) = count_msg unc_entry l := by
    intro l m a c hm
    unfold count_msg
    rw [List.filter_append]
    simp [hm]
  have hlen : (error_message ErrCode.END_ERROR none).length = 66 := by decide
  have hunc : unc_entry.length = 43 := by decide
  unfold check_end
  split
  · simp [count_msg]
  · unfold error
    dsimp only
    split
    · rcases hsk : skip_to (stopping_symbols ErrCode.END_ERROR) q.symbol q.scanner
        with ⟨a, b⟩
      simp only [hsk]
      split
      · unfold get_symbol
        cases b
        · dsimp only
          rw [happ]
          apply hne
          simp only [String.length_append]
          omega
        · dsimp only
          rw [happ]
          apply hne
          simp only [String.length_append]
          omega
      · dsimp only
        rw [happ]
        apply hne
        simp only [String.length_append]
        omega
    · dsimp only
      rw [happ]
      apply hne
      simp only [String.length_append]
      omega

/-- C7: after the connection list is built with semantic checks, the global
wiring check runs; if some input is undriven, the section raises exactly one
UNCONNECTED_INPUTS error for the whole network (one entry however many
inputs are unconnected — the hypothesis only says the check failed) and the
connection section reports failure. -/
theorem claim_C7 (p p1 p2 : PState)
    (h0 : p.reached_eof = false)
    (h1 : check_keyword SymId.clist p = (true, p1))
    (h2 : build_list NAMES connect (p1.scanner.length + 2) true p1 = (true, p2))
    (h3 : check_network p2.devices p2.network = false) :
    (connectionlist true p).1 = false ∧
    (connectionlist true p).2 =
      check_end true (error ErrCode.UNCONNECTED_INPUTS false none p2).2 ∧
    (error ErrCode.UNCONNECTED_INPUTS false none p2).2.error_messages =
      p2.error_messages ++ [(unc_entry, p2.symbol.linenum, p2.symbol.colnum)] ∧
    count_msg unc_entry (connectionlist true p).2.error_messages =
      count_msg unc_entry p2.error_messages + 1 := by
  have hmain : connectionlist true p =
      (false, check_end true (error ErrCode.UNCONNECTED_INPUTS false none p2).2) := by
    unfold connectionlist
    rw [if_neg (by simp [h0])]
    dsimp only
    rw [h1]
    dsimp only
    rw [if_neg (by simp), if_pos rfl, h2]
    dsimp only
    rw [if_neg (by simp), if_pos (by simp [h3])]
  refine ⟨by rw [hmain], by rw [hmain], rfl, ?_⟩
  rw [hmain]
  dsimp only
  rw [check_end_unc_count]
  have : (error ErrCode.UNCONNECTED_INPUTS false none p2).2.error_messages =
      p2.error_messages ++ [(unc_entry, p2.symbol.linenum, p2.symbol.colnum)] := rfl
  rw [this]
  unfold count_msg
  rw [List.filter_append]
  simp

theorem claim_C7_witness :
    (connectionlist true (get_symbol c7_state)).1 = false :=
  (claim_C7 (get_symbol c7_state)
    (check_keyword SymId.clist (get_symbol c7_state)).2
    (build_list NAMES connect
      ((check_keyword SymId.clist (get_symbol c7_state)).2.scanner.length + 2) true
      (check_keyword SymId.clist (get_symbol c7_state)).2).2
    (by decide) (by decide) (by decide) (by decide)).1

/-- C8: if after the monitor list is processed with semantic checks no
monitor point is registered, exactly one NO_MONITOR error is accumulated
without any recovery skipping (the current symbol and remaining stream are
untouched by that error), and parsing still continues to check END and
end-of-file. -/
theorem claim_C8 (p p1 p2 : PState) (b : Bool)
    (h0 : p.reached_eof = false)
    (h1 : check_keyword SymId.mlist p = (true, p1))
    (h2 : build_list NAMES monitor (p1.scanner.length + 2) true p1 = (b, p2))
    (h3 : p2.monitors.monitors_dictionary = []) :
    monitorlist true p =
      (let q := (error ErrCode.NO_MONITOR false none p2).2
       let r := check_end false q
       if r.symbol.id ≠ some SymId.eof then (error ErrCode.NO_EOF false none r).2
       else r) ∧
    (error ErrCode.NO_MONITOR false none p2).2.symbol = p2.symbol ∧
    (error ErrCode.NO_MONITOR false none p2).2.scanner = p2.scanner ∧
    (error ErrCode.NO_MONITOR false none p2).2.error_messages =
      p2.error_messages ++
        [(error_message ErrCode.NO_MONITOR none ++ "***\n",
          p2.symbol.linenum, p2.symbol.colnum)] := by
  refine ⟨?_, rfl, rfl, rfl⟩
  unfold monitorlist
  rw [if_neg (by simp [h0])]
  dsimp only
  rw [h1]
  dsimp only
  rw [if_neg (by simp), if_pos rfl, h2]
  dsimp only
  rw [if_pos (show p2.monitors.monitors_dictionary.isEmpty = true by simp [h3])]

theorem claim_C8_witness :
    (error ErrCode.NO_MONITOR false none
      (build_list NAMES monitor
        ((check_keyword SymId.mlist (get_symbol c8_state)).2.scanner.length + 2) true
        (check_keyword SymId.mlist (get_symbol c8_state)).2).2).2.symbol =
      (build_list NAMES monitor
        ((check_keyword SymId.mlist (get_symbol c8_state)).2.scanner.length + 2) true
        (check_keyword SymId.mlist (get_symbol c8_state)).2).2.symbol :=
  (claim_C8 (get_symbol c8_state)
    (check_keyword SymId.mlist (get_symbol c8_state)).2
    (build_list NAMES monitor
      ((check_keyword SymId.mlist (get_symbol c8_state)).2.scanner.length + 2) true
      (check_keyword SymId.mlist (get_symbol c8_state)).2).2
    (build_list NAMES monitor
      ((check_keyword SymId.mlist (get_symbol c8_state)).2.scanner.length + 2) true
      (check_keyword SymId.mlist (get_symbol c8_state)).2).1
    (by decide) (by decide) (by decide) (by decide)).2.1


theorem gnc_input_le (st : ScanSt) : (gnc st).2.input.length ≤ st.input.length := by
  unfold gnc
  rcases st.input with _ | ⟨c, cs⟩
  · simp
  · dsimp only
    split <;> simp

theorem gnnwcF_input_le (fuel : Nat) :
    ∀ st : ScanSt, (gnnwcF fuel st).2.input.length ≤ st.input.length := by
  induction fuel with
  | zero => intro st; exact Nat.le_refl _
  | succ n ih =>
    intro st
    unfold gnnwcF
    rcases hin : st.input with _ | ⟨c, cs⟩
    · simp [hin]
    · dsimp only
      have hg := gnc_input_le st
      rcases hr : (gnc st).1 with _ | c2
      · simpa [hin] using hg
      · dsimp only
        split
        · rw [hin] at hg
          exact le_trans (ih (gnc st).2) hg
        · simpa [hin] using hg

theorem gnnwc_input_le (st : ScanSt) : (gnnwc st).2.input.length ≤ st.input.length :=
  gnnwcF_input_le _ st

theorem gnnwc_input_lt (st : ScanSt) (h : st.input ≠ []) :
    (gnnwc st).2.input.length < st.input.length := by
  rcases hin : st.input with _ | ⟨c, cs⟩
  · exact absurd hin h
  · have hgnc : (gnc st).2.input = cs := by
      unfold gnc
      rw [hin]
      dsimp only
      split <;> rfl
    unfold gnnwc gnnwcF
    rw [hin]
    dsimp only
    rcases hr : (gnc st).1 with _ | c2
    · simp [hgnc]
    · dsimp only
      split
      · have h1 := gnnwcF_input_le ((c :: cs).length + 1 - 1) (gnc st).2
        rw [hgnc] at h1
        simp at h1 ⊢
        try omega
      · simp [hgnc]
theorem gnnwcF_sw (fuel : Nat) :
    ∀ st : ScanSt, st.commentSwitch ≠ 1 →
      (gnnwcF fuel st).2.commentSwitch = st.commentSwitch := by
  induction fuel with
  | zero => intro st _; rfl
  | succ n ih =>
    intro st hsw
    unfold gnnwcF
    rcases hin : st.input with _ | ⟨c, cs⟩
    · rfl
    · dsimp only
      have hgnc : (gnc st).2.commentSwitch = st.commentSwitch := by
        unfold gnc
        rw [hin]
        dsimp only
        split <;> simp_all
      rcases hr : (gnc st).1 with _ | c2
      · exact hgnc
      · dsimp only
        split
        · rw [ih (gnc st).2 (by rw [hgnc]; exact hsw)]
          exact hgnc
        · exact hgnc

theorem gnnwc_sw (st : ScanSt) (h : st.commentSwitch ≠ 1) :
    (gnnwc st).2.commentSwitch = st.commentSwitch :=
  gnnwcF_sw _ st h

theorem comment_loopF_sw0 (fuel : Nat) (s : Option Char × ScanSt)
    (h : s.2.commentSwitch = 0) : comment_loopF fuel s = s := by
  cases fuel with
  | zero => rfl
  | succ n =>
    unfold comment_loopF
    rw [if_neg (by simp [h])]

theorem comment_loop_sw0 (s : Option Char × ScanSt) (h : s.2.commentSwitch = 0) :
    comment_loop s = s :=
  comment_loopF_sw0 _ s h

theorem comment_loopF_none (fuel : Nat) (s : Option Char × ScanSt)
    (h : s.1 = none) : comment_loopF fuel s = s := by
  cases fuel with
  | zero => rfl
  | succ n =>
    unfold comment_loopF
    rw [h]
    try (split <;> rfl)

theorem comment_loop_none (s : Option Char × ScanSt) (h : s.1 = none) :
    comment_loop s = s :=
  comment_loopF_none _ s h

/-- gnnwc on exhausted input. -/
theorem gnnwc_eq_nil (st : ScanSt) (h : st.input = []) : gnnwc st = (none, st) := by
  unfold gnnwc gnnwcF
  rw [h]
  try rfl

theorem comment_loop_next_le (c : Char) (st : ScanSt) :
    (comment_loop_next c st).2.input.length ≤ st.input.length := by
  unfold comment_loop_next
  refine le_trans (gnnwc_input_le _) ?_
  split
  · dsimp only
    split
    · exact gnc_input_le st
    · exact gnc_input_le st
  · exact Nat.le_refl _

theorem gnc_nil_input (st : ScanSt) (h : st.input = []) : (gnc st).2.input = [] := by
  unfold gnc
  rw [h]

theorem gnnwc_progress (u : ScanSt) :
    (gnnwc u).2.input.length < u.input.length ∨ (gnnwc u).1 = none := by
  rcases hin : u.input with _ | ⟨x, xs⟩
  · right
    rw [gnnwc_eq_nil u hin]
  · left
    have h1 := gnnwc_input_lt u (by rw [hin]; simp)
    rwa [hin] at h1

theorem comment_loop_next_progress (c : Char) (st : ScanSt) :
    (comment_loop_next c st).2.input.length < st.input.length ∨
      (comment_loop_next c st).1 = none := by
  unfold comment_loop_next
  by_cases hb : st.commentSwitch = 2 ∧ c = '*'
  · rw [if_pos hb]
    dsimp only
    by_cases hr : (gnc st).1 = some '/'
    · rw [if_pos hr]
      rcases gnnwc_progress { (gnc st).2 with commentSwitch := 0 } with hlt | hn
      · left
        calc (gnnwc { (gnc st).2 with commentSwitch := 0 }).2.input.length
            < (gnc st).2.input.length := hlt
          _ ≤ st.input.length := gnc_input_le st
      · right; exact hn
    · rw [if_neg hr]
      rcases gnnwc_progress (gnc st).2 with hlt | hn
      · left
        exact lt_of_lt_of_le hlt (gnc_input_le st)
      · right; exact hn
  · rw [if_neg hb]
    rcases gnnwc_progress st with hlt | hn
    · left; exact hlt
    · right; exact hn

/-- comment_loopF is fuel-irrelevant above the bound input length + 2. -/
theorem comment_loopF_irrel (f1 : Nat) :
    ∀ (s : Option Char × ScanSt) (f2 : Nat),
      s.2.input.length + 2 ≤ f1 → s.2.input.length + 2 ≤ f2 →
      comment_loopF f1 s = comment_loopF f2 s := by
  induction f1 with
  | zero => intro s f2 h1 h2; omega
  | succ a ih =>
    intro s f2 h1 h2
    rcases f2 with _ | b
    · omega
    · unfold comment_loopF
      split
      · rcases hc : s.1 with _ | c
        · rfl
        · dsimp only
          rcases comment_loop_next_progress c s.2 with hlt | hnone
          · exact ih _ b (by omega) (by omega)
          · rw [comment_loopF_none a _ hnone, comment_loopF_none b _ hnone]
      · rfl

theorem comment_loop_eqF (f : Nat) (s : Option Char × ScanSt)
    (h : s.2.input.length + 2 ≤ f) : comment_loopF f s = comment_loop s :=
  comment_loopF_irrel f s (s.2.input.length + 2) h (Nat.le_refl _)

theorem comment_loopF_input_le (fuel : Nat) :
    ∀ s : Option Char × ScanSt,
      (comment_loopF fuel s).2.input.length ≤ s.2.input.length := by
  induction fuel with
  | zero => intro s; exact Nat.le_refl _
  | succ a ih =>
    intro s
    unfold comment_loopF
    split
    · rcases hc : s.1 with _ | c
      · exact Nat.le_refl _
      · dsimp only
        exact le_trans (ih _) (comment_loop_next_le c s.2)
    · exact Nat.le_refl _

theorem comment_loop_input_le (s : Option Char × ScanSt) :
    (comment_loop s).2.input.length ≤ s.2.input.length :=
  comment_loopF_input_le _ s

theorem comment_checkF_not_slash (fuel : Nat) (s : Option Char × ScanSt)
    (h : s.1 ≠ some '/') : comment_checkF fuel s = s := by
  cases fuel with
  | zero => rfl
  | succ a =>
    unfold comment_checkF
    rw [if_neg h]

theorem comment_check_next_le (st : ScanSt) :
    (comment_check_next st).2.input.length ≤ st.input.length := by
  unfold comment_check_next
  dsimp only
  refine le_trans (comment_loop_input_le _) (le_trans (gnnwc_input_le _) ?_)
  split
  · split
    · exact gnc_input_le st
    · exact gnc_input_le st
  · split
    · exact gnc_input_le st
    · exact gnc_input_le st

theorem check_next_progress_aux (st : ScanSt) (u : ScanSt)
    (hu : u.input = (gnc st).2.input) :
    (comment_loop (gnnwc u)).2.input.length < st.input.length ∨
      (comment_loop (gnnwc u)).1 = none := by
  rcases hin : st.input with _ | ⟨x, xs⟩
  · right
    have h2 : u.input = [] := by rw [hu]; exact gnc_nil_input st hin
    rw [gnnwc_eq_nil _ h2, comment_loop_none _ rfl]
  · left
    rw [← hin]
    have hg : (gnc st).2.input.length < st.input.length := by
      unfold gnc
      rw [hin]
      dsimp only
      split <;> simp [hin]
    have h3 := gnnwc_input_le u
    have h4 := comment_loop_input_le (gnnwc u)
    rw [hu] at h3
    omega

theorem comment_check_next_progress (st : ScanSt) :
    (comment_check_next st).2.input.length < st.input.length ∨
      (comment_check_next st).1 = none := by
  unfold comment_check_next
  dsimp only
  by_cases h1 : (gnc st).1 = some '/'
  · have h2 : ¬ (gnc st).1 = some '*' := by simp [h1]
    rw [if_pos h1, if_neg h2]
    exact check_next_progress_aux st _ rfl
  · by_cases h2 : (gnc st).1 = some '*'
    · rw [if_neg h1, if_pos h2]
      exact check_next_progress_aux st _ rfl
    · rw [if_neg h1, if_neg h2]
      exact check_next_progress_aux st _ rfl

/-- comment_checkF is fuel-irrelevant above the bound input length + 2. -/
theorem comment_checkF_irrel (f1 : Nat) :
    ∀ (s : Option Char × ScanSt) (f2 : Nat),
      s.2.input.length + 2 ≤ f1 → s.2.input.length + 2 ≤ f2 →
      comment_checkF f1 s = comment_checkF f2 s := by
  induction f1 with
  | zero => intro s f2 h1 h2; omega
  | succ a ih =>
    intro s f2 h1 h2
    rcases f2 with _ | b
    · omega
    · unfold comment_checkF
      split
      · rcases comment_check_next_progress s.2 with hlt | hnone
        · exact ih _ b (by omega) (by omega)
        · have hns : (comment_check_next s.2).1 ≠ some '/' := by
            rw [hnone]
            simp
          rw [comment_checkF_not_slash a _ hns, comment_checkF_not_slash b _ hns]
      · rfl

theorem comment_check_eqF (f : Nat) (s : Option Char × ScanSt)
    (h : s.2.input.length + 2 ≤ f) : comment_checkF f s = comment_check s :=
  comment_checkF_irrel f s (s.2.input.length + 2) h (Nat.le_refl _)


/-- One step of get_next_non_whitespace_character on a non-empty input:
read the head (updating line/column/comment switch for a newline), then
either return it or keep skipping if it is whitespace. -/
theorem gnnwc_step (ch : Char) (cs : List Char) (l co sw : Nat) :
    gnnwc ⟨ch :: cs, l, co, sw⟩ =
      (if ch = '\n' then
        (if ch.isWhitespace then gnnwc ⟨cs, l + 1, 0, if sw = 1 then 0 else sw⟩
         else (some ch, ⟨cs, l + 1, 0, if sw = 1 then 0 else sw⟩))
      else
        (if ch.isWhitespace then gnnwc ⟨cs, l, co + 1, sw⟩
         else (some ch, ⟨cs, l, co + 1, sw⟩))) := by
  show gnnwcF (cs.length + 1 + 1) ⟨ch :: cs, l, co, sw⟩ = _
  unfold gnnwcF
  dsimp only
  unfold gnc
  dsimp only
  by_cases hn : ch = '\n'
  · rw [if_pos hn, if_pos hn]
    dsimp only
    by_cases hw : ch.isWhitespace
    · rw [if_pos hw, if_pos hw]
      rfl
    · rw [if_neg hw, if_neg hw]
  · rw [if_neg hn, if_neg hn]
    dsimp only
    by_cases hw : ch.isWhitespace
    · rw [if_pos hw, if_pos hw]
      rfl
    · rw [if_neg hw, if_neg hw]


/-- The comment loop in a single-line comment, on a symbol that is not yet
consumed: the iteration just reads on (the star check is only made in block
comments). -/
theorem comment_loop_skip (cc : Char) (st : ScanSt)
    (h0 : st.commentSwitch ≠ 0)
    (h2 : ¬(st.commentSwitch = 2 ∧ cc = '*')) :
    comment_loop (some cc, st) = comment_loop (gnnwc st) := by
  show comment_loopF (st.input.length + 2) (some cc, st) = _
  unfold comment_loopF
  rw [if_pos (by simpa using h0)]
  dsimp only
  unfold comment_loop_next
  rw [if_neg h2]
  rcases hin : st.input with _ | ⟨x, xs⟩
  · rw [gnnwc_eq_nil st hin]
    rw [comment_loopF_none _ _ rfl, comment_loop_none _ rfl]
  · apply comment_loop_eqF
    have h1 := gnnwc_input_lt st (by rw [hin]; simp)
    rw [hin] at h1
    simp at h1 ⊢
    omega

/-- The comment loop on a '*' immediately followed by '/': the block
comment closes and the loop ends after reading the next non-whitespace
character. -/
theorem comment_loop_star (rest : List Char) (l c : Nat) :
    comment_loop (some '*', ⟨'/' :: rest, l, c, 2⟩) = gnnwc ⟨rest, l, c + 1, 0⟩ := by
  show comment_loopF (rest.length + 1 + 2) _ = _
  unfold comment_loopF
  rw [if_pos (by simp)]
  dsimp only
  unfold comment_loop_next
  rw [if_pos ⟨rfl, rfl⟩]
  dsimp only
  unfold gnc
  dsimp only
  rw [if_neg (show ¬('/' : Char) = '\n' by decide)]
  dsimp only
  rw [if_pos rfl]
  dsimp only
  have hsw : (gnnwc ⟨rest, l, c + 1, 0⟩).2.commentSwitch = 0 :=
    gnnwc_sw _ (by simp)
  rw [comment_loopF_sw0 _ _ hsw]

/-- The comment loop at the newline ending a single-line comment: the
switch is cleared and scanning resumes at the first non-whitespace
character after the newline. -/
theorem comment_loop_line_nil (rest : List Char) (l c : Nat) :
    comment_loop (gnnwc ⟨'\n' :: rest, l, c, 1⟩) = gnnwc ⟨rest, l + 1, 0, 0⟩ := by
  rw [gnnwc_step, if_pos rfl, if_pos (by decide)]
  rw [show (if (1 : Nat) = 1 then (0 : Nat) else 1) = 0 from rfl]
  exact comment_loop_sw0 _ (gnnwc_sw _ (by simp))

/-- A single-line comment body containing no newline is skipped entirely:
the loop consumes it up to and past the terminating newline, leaving the
scanner at the first non-whitespace character after it. -/
theorem comment_loop_line (n : Nat) :
    ∀ (body rest : List Char) (l c : Nat),
      body.length ≤ n → (∀ ch ∈ body, ch ≠ '\n') →
      comment_loop (gnnwc ⟨body ++ '\n' :: rest, l, c, 1⟩) =
        gnnwc ⟨rest, l + 1, 0, 0⟩ := by
  induction n with
  | zero =>
    intro body rest l c hlen hb
    have hbody : body = [] := List.length_eq_zero.mp (Nat.le_zero.mp hlen)
    subst hbody
    exact comment_loop_line_nil rest l c
  | succ m ih =>
    intro body rest l c hlen hb
    rcases body with _ | ⟨ch, body2⟩
    · exact comment_loop_line_nil rest l c
    · have hch : ch ≠ '\n' := hb ch (by simp)
      rw [List.cons_append, gnnwc_step, if_neg hch]
      by_cases hw : ch.isWhitespace
      · rw [if_pos hw]
        exact ih body2 rest l (c + 1) (by simpa using hlen)
          (fun d hd => hb d (by simp [hd]))
      · rw [if_neg hw]
        rw [comment_loop_skip ch _ (by simp) (by simp)]
        exact ih body2 rest l (c + 1) (by simpa using hlen)
          (fun d hd => hb d (by simp [hd]))

/-- The comment loop at the closing '*' '/' of a block comment whose
remaining body is exhausted. -/
theorem comment_loop_block_nil (rest : List Char) (l c : Nat) :
    comment_loop (gnnwc ⟨'*' :: '/' :: rest, l, c, 2⟩) =
      gnnwc ⟨rest, l, c + 2, 0⟩ := by
  rw [gnnwc_step, if_neg (by decide), if_neg (by decide)]
  exact comment_loop_star rest l (c + 1)

/-- A block comment whose body contains no star is skipped entirely up to
its closing star-slash; scanning resumes at the first non-whitespace
character after it (at some line and column). -/
theorem comment_loop_block (n : Nat) :
    ∀ (body rest : List Char) (l c : Nat),
      body.length ≤ n → (∀ ch ∈ body, ch ≠ '*') →
      ∃ l2 c2, comment_loop (gnnwc ⟨body ++ '*' :: '/' :: rest, l, c, 2⟩) =
        gnnwc ⟨rest, l2, c2, 0⟩ := by
  induction n with
  | zero =>
    intro body rest l c hlen hb
    have hbody : body = [] := List.length_eq_zero.mp (Nat.le_zero.mp hlen)
    subst hbody
    exact ⟨l, c + 2, comment_loop_block_nil rest l c⟩
  | succ m ih =>
    intro body rest l c hlen hb
    rcases body with _ | ⟨ch, body2⟩
    · exact ⟨l, c + 2, comment_loop_block_nil rest l c⟩
    · have hch : ch ≠ '*' := hb ch (by simp)
      rw [List.cons_append, gnnwc_step]
      by_cases hn : ch = '\n'
      · rw [if_pos hn, if_pos (hn ▸ (by decide : ('\n').isWhitespace = true))]
        rw [show (if (2 : Nat) = 1 then (0 : Nat) else 2) = 2 from rfl]
        exact ih body2 rest (l + 1) 0 (by simpa using hlen)
          (fun d hd => hb d (by simp [hd]))
      · rw [if_neg hn]
        by_cases hw : ch.isWhitespace
        · rw [if_pos hw]
          exact ih body2 rest l (c + 1) (by simpa using hlen)
            (fun d hd => hb d (by simp [hd]))
        · rw [if_neg hw]
          rw [comment_loop_skip ch _ (by simp) (by simp [hch])]
          exact ih body2 rest l (c + 1) (by simpa using hlen)
            (fun d hd => hb d (by simp [hd]))


/-- comment_check elides a whole single-line comment: entered at the first
'/' of "//body" with body newline-free, it resumes (still checking for a
further adjacent comment) at the first non-whitespace character after the
terminating newline. -/
theorem comment_check_line (body rest : List Char) (l c : Nat)
    (hb : ∀ ch ∈ body, ch ≠ '\n') :
    comment_check (some '/', ⟨'/' :: (body ++ '\n' :: rest), l, c, 0⟩) =
      comment_check (gnnwc ⟨rest, l + 1, 0, 0⟩) := by
  show comment_checkF (('/' :: (body ++ '\n' :: rest)).length + 2) _ = _
  unfold comment_checkF
  rw [if_pos rfl]
  have hnext : comment_check_next ⟨'/' :: (body ++ '\n' :: rest), l, c, 0⟩ =
      comment_loop (gnnwc ⟨body ++ '\n' :: rest, l, c + 1, 1⟩) := by
    unfold comment_check_next
    dsimp only
    unfold gnc
    dsimp only
    rw [if_neg (show ¬('/' : Char) = '\n' by decide)]
    dsimp only
    rw [if_pos rfl, if_neg (by simp)]
  rw [hnext, comment_loop_line body.length body rest l (c + 1) (Nat.le_refl _) hb]
  apply comment_check_eqF
  have h1 := gnnwc_input_le ⟨rest, l + 1, 0, 0⟩
  simp only [List.length_cons, List.length_append] at h1 ⊢
  omega

/-- comment_check elides a whole block comment with a star-free body:
entered at the first '/' of "/星body*/", it resumes (still checking for a
further adjacent comment) at the first non-whitespace character after the
closing star-slash. -/
theorem comment_check_block (body rest : List Char) (l c : Nat)
    (hb : ∀ ch ∈ body, ch ≠ '*') :
    ∃ l2 c2,
      comment_check (some '/', ⟨'*' :: (body ++ '*' :: '/' :: rest), l, c, 0⟩) =
        comment_check (gnnwc ⟨rest, l2, c2, 0⟩) := by
  have hnext : comment_check_next ⟨'*' :: (body ++ '*' :: '/' :: rest), l, c, 0⟩ =
      comment_loop (gnnwc ⟨body ++ '*' :: '/' :: rest, l, c + 1, 2⟩) := by
    unfold comment_check_next
    dsimp only
    unfold gnc
    dsimp only
    rw [if_neg (show ¬('*' : Char) = '\n' by decide)]
    dsimp only
    rw [if_pos (show (some '*' : Option Char) = some '*' from rfl)]
    rw [if_neg (show ¬(some '*' : Option Char) = some '/' by simp)]
  obtain ⟨l2, c2, hloop⟩ :=
    comment_loop_block body.length body rest l (c + 1) (Nat.le_refl _) hb
  refine ⟨l2, c2, ?_⟩
  show comment_checkF (('*' :: (body ++ '*' :: '/' :: rest)).length + 2) _ = _
  unfold comment_checkF
  rw [if_pos rfl, hnext, hloop]
  apply comment_check_eqF
  have h1 := gnnwc_input_le ⟨rest, l2, c2, 0⟩
  simp only [List.length_cons, List.length_append] at h1 ⊢
  omega


/-- C9 (amended): comments are elided by the lexer and produce no token:
a // comment ends at the next newline (scanning resumes after it, still
checking for an immediately adjacent comment); a /* comment whose body
contains no star ends at the first following star-slash; comment_check
does nothing except at a '/', so elision happens before any token is
formed; and, concretely, adjacent comments are all skipped before the next
token is formed.  (The original claim's parenthesis about terminators such
as star-star-slash is dropped: the scanner examines stars pairwise, so a
closing star-slash whose star was already consumed by a preceding star
check is not recognised — see the counterexample.) -/
theorem claim_C9 :
    (∀ (body rest : List Char) (l c : Nat), (∀ ch ∈ body, ch ≠ '\n') →
      comment_check (some '/', ⟨'/' :: (body ++ '\n' :: rest), l, c, 0⟩) =
        comment_check (gnnwc ⟨rest, l + 1, 0, 0⟩)) ∧
    (∀ (body rest : List Char) (l c : Nat), (∀ ch ∈ body, ch ≠ '*') →
      ∃ l2 c2,
        comment_check (some '/', ⟨'*' :: (body ++ '*' :: '/' :: rest), l, c, 0⟩) =
          comment_check (gnnwc ⟨rest, l2, c2, 0⟩)) ∧
    (∀ s : Option Char × ScanSt, s.1 ≠ some '/' → comment_check s = s) ∧
    tokenize (initScan "/*x*/// y\nz") =
      [⟨some NAMES, some (SymId.str "z"), 2, 1⟩] := by
  refine ⟨comment_check_line, comment_check_block, ?_, by decide⟩
  intro s hs
  exact comment_checkF_not_slash _ s hs

theorem claim_C9_witness :
    comment_check (some '/',
      ⟨'/' :: (['h', 'i'] ++ '\n' :: ['z', 'w']), 1, 1, 0⟩) =
      comment_check (gnnwc ⟨['z', 'w'], 1 + 1, 0, 0⟩) :=
  claim_C9.1 ['h', 'i'] ['z', 'w'] 1 1 (by decide)

/-- C9 counterexample: the claim as stated says a block comment ends at the
first following star-slash occurrence, including a terminator whose closing
star-slash is preceded by another star.  On "/*a**/b" the scanner never
terminates the comment (the second star is consumed by the failed
slash-check after the first), so the whole input including b is swallowed
and no token is produced — while the plain terminator in "/*a*/b" works. -/
theorem claim_C9_counterexample :
    tokenize (initScan "/*a**/b") = [] ∧
    tokenize (initScan "/*a*/b") =
      [⟨some NAMES, some (SymId.str "b"), 1, 6⟩] := by
  constructor
  · decide
  · decide

/-- find? over an append: the first list is searched first. -/
theorem find_app {α : Type} (p : α → Bool) (l1 l2 : List α) :
    (l1 ++ l2).find? p = ((l1.find? p).or (l2.find? p)) := by
  induction l1 with
  | nil => rfl
  | cons a t ih =>
    by_cases h : p a
    · simp [List.find?_cons_of_pos _ h]
    · simp [List.find?_cons_of_neg _ h, ih]

/-- find? over a singleton. -/
theorem find_singleton {α : Type} (p : α → Bool) (x : α) :
    [x].find? p = (if p x then some x else none) := by
  by_cases h : p x
  · simp [List.find?_cons_of_pos _ h, h]
  · simp [List.find?_cons_of_neg _ h, h]

/-- get_device as a map over the devmap search. -/
theorem get_device_eq (ds : Devices) (id : Option SymId) :
    get_device ds id = (ds.devmap.find? (fun e => e.1 == id)).map (fun e => e.2) := by
  unfold get_device
  rcases h : ds.devmap.find? (fun e => e.1 == id) with _ | e <;> rw [h] <;> rfl

/-- get_device ignores the instrumentation counter. -/
theorem get_device_any_calls (dv : Devices) (k : Nat) (id : Option SymId) :
    get_device ⟨dv.devmap, k⟩ id = get_device dv id := rfl

/-- Adding a device under a different name keeps an id absent. -/
theorem get_device_devAfter1_none (dv : Devices) (d : DeviceDecl) (id : Option SymId)
    (h1 : get_device dv id = none) (h2 : some (SymId.str d.dname) ≠ id) :
    get_device (devAfter1 dv d) id = none := by
  rw [get_device_eq] at h1 ⊢
  unfold devAfter1
  dsimp only
  rw [find_app]
  rcases hf : dv.devmap.find? (fun e => e.1 == id) with _ | e
  · rw [hf, find_singleton]
    have hb : ((some (SymId.str d.dname), mkDevice d).1 == id) = false := by
      simp [h2]
    rw [hb]
    simp [Option.or]
  · rw [hf] at h1
    simp at h1

/-- The devmap built by a list of valid declarations. -/
theorem devsAfter_devmap (ds : List DeviceDecl) :
    ∀ dv : Devices, (devsAfter dv ds).devmap =
      dv.devmap ++ ds.map (fun d => (some (SymId.str d.dname), mkDevice d)) := by
  induction ds with
  | nil => intro dv; simp [devsAfter]
  | cons d t ih =>
    intro dv
    show (devsAfter (devAfter1 dv d) t).devmap = _
    rw [ih]
    simp [devAfter1]

/-- Searching the built devmap is searching the declarations. -/
theorem find_dev_map (ds : List DeviceDecl) (s : String) :
    (ds.map (fun d => (some (SymId.str d.dname), mkDevice d))).find?
        (fun e => e.1 == some (SymId.str s)) =
      (ds.find? (fun d => d.dname == s)).map
        (fun d => (some (SymId.str d.dname), mkDevice d)) := by
  induction ds with
  | nil => rfl
  | cons d t ih =>
    by_cases h : d.dname = s
    · rw [List.map_cons, List.find?_cons_of_pos _ (by simp [h]),
        List.find?_cons_of_pos _ (by simp [h])]
      rfl
    · rw [List.map_cons, List.find?_cons_of_neg _ (by simp [h]),
        List.find?_cons_of_neg _ (by simp [h]), ih]

/-- Looking a name up in the Device Model built from the declarations. -/
theorem get_device_built (ds : List DeviceDecl) (k : Nat) (s : String) :
    get_device (devsAfter ⟨[], k⟩ ds) (some (SymId.str s)) =
      (findDecl ds s).map mkDevice := by
  rw [get_device_eq, devsAfter_devmap]
  dsimp only
  rw [List.nil_append, find_dev_map]
  unfold findDecl
  rcases h : ds.find? (fun d => d.dname == s) with _ | d <;> rw [h] <;> rfl

/-- The connections built by a list of valid connection items. -/
theorem netsAfter_conns (cs : List ConnDecl) :
    ∀ nw : Network, (netsAfter nw cs).connections =
      nw.connections ++ cs.map connEntry := by
  induction cs with
  | nil => intro nw; simp [netsAfter]
  | cons c t ih =>
    intro nw
    show (netsAfter (netAfter1 nw c) t).connections = _
    rw [ih]
    simp [netAfter1]

/-- The monitors dictionary built by a list of valid monitor items. -/
theorem monsAfter_dict (os : List OutRef) :
    ∀ mo : Monitors, (monsAfter mo os).monitors_dictionary =
      mo.monitors_dictionary ++ os.map monEntry := by
  induction os with
  | nil => intro mo; simp [monsAfter]
  | cons o t ih =>
    intro mo
    show (monsAfter (monAfter1 mo o) t).monitors_dictionary = _
    rw [ih]
    simp [monAfter1]

/-- A valid declaration's kind is a device keyword, hence not END or EOF. -/
theorem devVal_kind (d : DeviceDecl) (h : devVal d = true) :
    idMem (some d.kind) device_keywords = true ∧
      d.kind ≠ SymId.end_ ∧ d.kind ≠ SymId.eof := by
  rcases d with ⟨k, nm, _ | (b | s)⟩ <;> cases k <;>
    first
      | (dsimp only; decide)
      | (exfalso; simp [devVal] at h)

/-- The built device carries its declared kind. -/
theorem mkDevice_kind (d : DeviceDecl) : (mkDevice d).device_kind = some d.kind := by
  rcases d with ⟨k, nm, _ | (b | s)⟩ <;> cases k <;> rfl

/-- The built device's outputs: Q and QBAR for DTYPE, one unnamed output
otherwise. -/
theorem mkDevice_outputs (d : DeviceDecl) :
    (mkDevice d).outputs = if d.kind = SymId.dtype then dtype_outputs else [none] := by
  rcases d with ⟨k, nm, _ | (b | s)⟩ <;> cases k <;> simp [mkDevice]

/-- Each item's rendering is non-empty, so the rendered section is at least
as long as the item list. -/
theorem length_le_flatten {α β : Type} (f : α → List β) (l : List α)
    (h : ∀ a ∈ l, 1 ≤ (f a).length) : l.length ≤ ((l.map f).flatten).length := by
  induction l with
  | nil => simp
  | cons a t ih =>
    simp only [List.map_cons, List.flatten_cons, List.length_append, List.length_cons]
    have h1 := h a (by simp)
    have h2 := ih (fun x hx => h x (by simp [hx]))
    omega

/-- Parsing one valid device declaration from its rendered tokens: device
returns True, adds exactly the declared device to the Device Model, and
leaves the parser on the following token. -/
theorem device_ok (d : DeviceDecl) (r1 : Symbol) (rs : List Symbol)
    (ec : Nat) (em : List (String × Nat × Nat)) (me re : Bool) (dv : Devices)
    (nw : Network) (mo : Monitors) (pl : List (String × Nat × Nat))
    (hv : devVal d = true)
    (hnew : get_device dv (some (SymId.str d.dname)) = none) :
    device ⟨renderDeviceTail d ++ r1 :: rs, devTok d, ec, em, me, re, dv, nw, mo, pl⟩ =
      (true, ⟨rs, r1, ec, em, me, re, devAfter1 dv d, nw, mo, pl⟩) := by
  rcases d with ⟨k, nm, _ | (b | s)⟩
  · cases k <;>
      first
        | (exfalso; simp [devVal] at hv; done)
        | (simp +decide [device, renderDeviceTail, renderProp, devTok, nameTok, sclTok,
            get_symbol, idMem, device_keywords, check_valid_name, get_device_any_calls,
            hnew, get_property, make_device, addDev, devAfter1, mkDevice,
            get_name_string, initial_states]
           done)
  · cases k <;>
      first
        | (exfalso; simp [devVal] at hv; done)
        | (cases b <;>
            simp +decide [device, renderDeviceTail, renderProp, devTok, nameTok, sclTok,
              get_symbol, idMem, device_keywords, check_valid_name, get_device_any_calls,
              hnew, get_property, make_device, addDev, devAfter1, mkDevice,
              get_name_string, initial_states] <;>
            done)
  · cases k <;>
      first
        | (exfalso; simp [devVal] at hv; done)
        | (simp [devVal] at hv
           simp +decide [device, renderDeviceTail, renderProp, devTok, nameTok, sclTok,
             get_symbol, idMem, device_keywords, check_valid_name, get_device_any_calls,
             hnew, get_property, make_device, addDev, devAfter1, mkDevice,
             get_name_string, initial_states, hv]
           first
             | done
             | (simp [eq_true hv.2]; done))

/-- Running build_list over the rendered declarations of a valid device
section: every declaration is consumed and made, and the parser stops on the
END keyword with the success flag passed through. -/
theorem build_list_devices (ds : List DeviceDecl) :
    ∀ (fuel : Nat) (sym : Symbol) (sc rest : List Symbol) (ec : Nat)
      (em : List (String × Nat × Nat)) (me re : Bool) (dv : Devices)
      (nw : Network) (mo : Monitors) (pl : List (String × Nat × Nat)) (b : Bool),
      ds.length + 1 ≤ fuel →
      sym :: sc = (ds.map renderDevice).flatten ++ endTok :: rest →
      (∀ d ∈ ds, devVal d = true) →
      (∀ d ∈ ds, get_device dv (some (SymId.str d.dname)) = none) →
      (ds.map (fun d => d.dname)).Nodup →
      build_list DEVICETYPE device fuel b ⟨sc, sym, ec, em, me, re, dv, nw, mo, pl⟩ =
        (b, ⟨rest, endTok, ec, em, me, re, devsAfter dv ds, nw, mo, pl⟩) := by
  induction ds with
  | nil =>
    intro fuel sym sc rest ec em me re dv nw mo pl b hfuel hshape hv hfresh hnd
    simp only [List.map_nil, List.flatten_nil, List.nil_append] at hshape
    injection hshape with hsym hsc
    subst hsym
    subst hsc
    obtain ⟨f, rfl⟩ : ∃ f, fuel = f + 1 := ⟨fuel - 1, by omega⟩
    simp [build_list, endTok, keyTok, devsAfter]
  | cons d t ih =>
    intro fuel sym sc rest ec em me re dv nw mo pl b hfuel hshape hv hfresh hnd
    simp only [List.length_cons] at hfuel
    simp only [List.map_cons, List.flatten_cons, renderDevice, List.cons_append,
      List.append_assoc] at hshape
    injection hshape with hsym hsc
    subst hsym
    obtain ⟨f, rfl⟩ : ∃ f, fuel = f + 1 := ⟨fuel - 1, by omega⟩
    have hvd := hv d (by simp)
    obtain ⟨hkm, hke, hkf⟩ := devVal_kind d hvd
    obtain ⟨r1, rs, hJ⟩ :
        ∃ r1 rs, (t.map renderDevice).flatten ++ endTok :: rest = r1 :: rs := by
      rcases (t.map renderDevice).flatten with _ | ⟨j, js⟩
      · exact ⟨endTok, rest, rfl⟩
      · exact ⟨j, js ++ endTok :: rest, by simp⟩
    rw [hJ] at hsc
    subst hsc
    have hnd2 := List.nodup_cons.mp (by simpa only [List.map_cons] using hnd)
    have hstep := device_ok d r1 rs ec em me re dv nw mo pl hvd (hfresh d (by simp))
    simp only [build_list]
    dsimp only [devTok] at hstep ⊢
    rw [if_pos (show some d.kind ≠ some SymId.end_ ∧ some d.kind ≠ some SymId.eof from
      ⟨by simp [hke], by simp [hkf]⟩)]
    rw [if_pos (rfl : (some DEVICETYPE : Option Nat) = some DEVICETYPE)]
    try dsimp only
    rw [hstep]
    try dsimp only
    rw [Bool.and_true]
    have hfresh2 : ∀ x ∈ t, get_device (devAfter1 dv d) (some (SymId.str x.dname)) = none := by
      intro x hx
      refine get_device_devAfter1_none dv d _ (hfresh x (List.mem_cons_of_mem _ hx)) ?_
      simp only [ne_eq, Option.some.injEq, SymId.str.injEq]
      intro hdn
      exact hnd2.1 (hdn ▸ List.mem_map_of_mem _ hx)
    exact ih f r1 rs rest ec em me re (devAfter1 dv d) nw mo pl b (by omega) hJ.symm
      (fun x hx => hv x (List.mem_cons_of_mem _ hx)) hfresh2 hnd2.2

/-- Parsing a valid DEVICE_LIST section: devicelist succeeds, builds exactly
the declared devices and leaves the parser just past the END keyword. -/
theorem devicelist_ok (ds : List DeviceDecl) (r1 : Symbol) (rs : List Symbol)
    (ec : Nat) (em : List (String × Nat × Nat)) (me : Bool) (dv : Devices)
    (nw : Network) (mo : Monitors) (pl : List (String × Nat × Nat))
    (hv : ∀ d ∈ ds, devVal d = true)
    (hfresh : ∀ d ∈ ds, get_device dv (some (SymId.str d.dname)) = none)
    (hnd : (ds.map (fun d => d.dname)).Nodup) :
    devicelist ⟨clTok :: ((ds.map renderDevice).flatten ++ endTok :: r1 :: rs),
        keyTok SymId.dlist, ec, em, me, false, dv, nw, mo, pl⟩ =
      (true, ⟨rs, r1, ec, em, me, false, devsAfter dv ds, nw, mo, pl⟩) := by
  have hlen : ds.length ≤ ((ds.map renderDevice).flatten).length :=
    length_le_flatten _ _ (fun a _ => by simp [renderDevice, renderDeviceTail])
  obtain ⟨sym, sc, hT⟩ :
      ∃ sym sc, (ds.map renderDevice).flatten ++ endTok :: r1 :: rs = sym :: sc := by
    rcases (ds.map renderDevice).flatten with _ | ⟨j, js⟩
    · exact ⟨endTok, r1 :: rs, rfl⟩
    · exact ⟨j, js ++ endTok :: r1 :: rs, by simp⟩
  have hlc := congrArg List.length hT
  simp only [List.length_append, List.length_cons] at hlc
  rw [hT]
  have hbl := build_list_devices ds (sc.length + 2) sym sc (r1 :: rs) ec em me false
    dv nw mo pl true (by omega) hT.symm hv hfresh hnd
  simp +decide [devicelist, check_keyword, get_symbol, clTok, hbl, check_end,
    endTok, keyTok]

/-- Parsing one valid connection item from its rendered tokens: connect
returns True, adds exactly the declared connection to the Connection Graph,
and leaves the parser on the following token. -/
theorem connect_ok (c : ConnDecl) (dsrc ddst : Device) (r1 : Symbol) (rs : List Symbol)
    (ec : Nat) (em : List (String × Nat × Nat)) (me re : Bool) (dv : Devices)
    (nw : Network) (mo : Monitors) (pl : List (String × Nat × Nat))
    (hs : get_device dv (some (SymId.str c.src.dev)) = some dsrc)
    (hd : get_device dv (some (SymId.str c.dstDev)) = some ddst)
    (hpin : match c.src.pin with
      | none => dsrc.device_kind ≠ some SymId.dtype ∧ dsrc.outputs.contains none = true
      | some pn => dsrc.device_kind = some SymId.dtype ∧
          dsrc.outputs.contains (some (SymId.str pn)) = true)
    (hin : ddst.inputs.contains (SymId.str c.dstPin) = true)
    (hfree : nw.connections.any (fun e => e.1 == tgt c) = false) :
    connect ⟨renderConnTail c ++ r1 :: rs, nameTok c.src.dev, ec, em, me, re, dv, nw, mo, pl⟩ =
      (true, ⟨rs, r1, ec, em, me, re, dv, netAfter1 nw c, mo, pl⟩) := by
  simp only [tgt] at hfree
  rcases c with ⟨⟨sdev, hpn⟩, ddev, dpin⟩
  rcases hpn with _ | pn
  · dsimp only at hpin hs hd hfree hin ⊢
    obtain ⟨hp1, hp2⟩ := hpin
    have hp2m : none ∈ dsrc.outputs := by simpa using hp2
    have hinm : SymId.str dpin ∈ ddst.inputs := by simpa using hin
    simp +decide [connect, get_io, renderConnTail, renderOutTail, nameTok, arTok,
      peTok, sclTok, get_symbol, make_connection, idMem, connEntry, tgt, monEntry,
      netAfter1, INPUT, OUTPUT, hs, hd, hin, hfree, hp1, hp2, hp2m, hinm]
  · dsimp only at hpin hs hd hfree hin ⊢
    obtain ⟨hp1, hp2⟩ := hpin
    have hp2m : some (SymId.str pn) ∈ dsrc.outputs := by simpa using hp2
    have hinm : SymId.str dpin ∈ ddst.inputs := by simpa using hin
    simp +decide [connect, get_io, renderConnTail, renderOutTail, nameTok, arTok,
      peTok, sclTok, get_symbol, make_connection, idMem, connEntry, tgt, monEntry,
      netAfter1, INPUT, OUTPUT, hs, hd, hin, hfree, hp1, hp2, hp2m, hinm]

/-- Running build_list over the rendered items of a valid connection
section: every item is consumed and its connection made, and the parser
stops on the END keyword with the success flag passed through. -/
theorem build_list_conns (cs : List ConnDecl) :
    ∀ (fuel : Nat) (sym : Symbol) (sc rest : List Symbol) (ec : Nat)
      (em : List (String × Nat × Nat)) (me re : Bool) (dv : Devices)
      (nw : Network) (mo : Monitors) (pl : List (String × Nat × Nat)) (b : Bool),
      cs.length + 1 ≤ fuel →
      sym :: sc = (cs.map renderConn).flatten ++ endTok :: rest →
      (∀ c ∈ cs, connOK dv c = true) →
      (∀ c ∈ cs, nw.connections.any (fun e => e.1 == tgt c) = false) →
      (cs.map tgt).Nodup →
      build_list NAMES connect fuel b ⟨sc, sym, ec, em, me, re, dv, nw, mo, pl⟩ =
        (b, ⟨rest, endTok, ec, em, me, re, dv, netsAfter nw cs, mo, pl⟩) := by
  induction cs with
  | nil =>
    intro fuel sym sc rest ec em me re dv nw mo pl b hfuel hshape hok hfree hnd
    simp only [List.map_nil, List.flatten_nil, List.nil_append] at hshape
    injection hshape with hsym hsc
    subst hsym
    subst hsc
    obtain ⟨f, rfl⟩ : ∃ f, fuel = f + 1 := ⟨fuel - 1, by omega⟩
    simp [build_list, endTok, keyTok, netsAfter]
  | cons c t ih =>
    intro fuel sym sc rest ec em me re dv nw mo pl b hfuel hshape hok hfree hnd
    simp only [List.length_cons] at hfuel
    simp only [List.map_cons, List.flatten_cons, renderConn, List.cons_append,
      List.append_assoc] at hshape
    injection hshape with hsym hsc
    subst hsym
    obtain ⟨f, rfl⟩ : ∃ f, fuel = f + 1 := ⟨fuel - 1, by omega⟩
    obtain ⟨r1, rs, hJ⟩ :
        ∃ r1 rs, (t.map renderConn).flatten ++ endTok :: rest = r1 :: rs := by
      rcases (t.map renderConn).flatten with _ | ⟨j, js⟩
      · exact ⟨endTok, rest, rfl⟩
      · exact ⟨j, js ++ endTok :: rest, by simp⟩
    rw [hJ] at hsc
    subst hsc
    have hnd2 := List.nodup_cons.mp (by simpa only [List.map_cons] using hnd)
    have hokc := hok c (by simp)
    rw [connOK, Bool.and_eq_true] at hokc
    obtain ⟨ho, hdst⟩ := hokc
    rcases hgd : get_device dv (some (SymId.str c.dstDev)) with _ | ddst
    · rw [hgd] at hdst; simp at hdst
    rw [hgd] at hdst
    dsimp only at hdst
    rw [outOK] at ho
    rcases hgs : get_device dv (some (SymId.str c.src.dev)) with _ | dsrc
    · rw [hgs] at ho; simp at ho
    rw [hgs] at ho
    have hpin : match c.src.pin with
        | none => dsrc.device_kind ≠ some SymId.dtype ∧ dsrc.outputs.contains none = true
        | some pn => dsrc.device_kind = some SymId.dtype ∧
            dsrc.outputs.contains (some (SymId.str pn)) = true := by
      rcases hsp : c.src.pin with _ | pn <;> rw [hsp] at ho <;> dsimp only at ho ⊢ <;>
        rw [Bool.and_eq_true] at ho
      · exact ⟨by simpa using ho.1, ho.2⟩
      · exact ⟨by simpa using ho.1, ho.2⟩
    have hstep := connect_ok c dsrc ddst r1 rs ec em me re dv nw mo pl hgs hgd hpin
      hdst (hfree c (by simp))
    simp only [build_list]
    dsimp only [nameTok] at hstep ⊢
    rw [if_pos (show some (SymId.str c.src.dev) ≠ some SymId.end_ ∧
      some (SymId.str c.src.dev) ≠ some SymId.eof from ⟨by simp, by simp⟩)]
    rw [if_pos (rfl : (some NAMES : Option Nat) = some NAMES)]
    try dsimp only
    rw [hstep]
    try dsimp only
    rw [Bool.and_true]
    have hfree2 : ∀ x ∈ t,
        (netAfter1 nw c).connections.any (fun e => e.1 == tgt x) = false := by
      intro x hx
      have hne : tgt c ≠ tgt x := fun hh => hnd2.1 (hh ▸ List.mem_map_of_mem _ hx)
      simp [netAfter1, List.any_append, hfree x (List.mem_cons_of_mem _ hx),
        connEntry, beq_eq_false_iff_ne, hne]
    exact ih f r1 rs rest ec em me re dv (netAfter1 nw c) mo pl b (by omega) hJ.symm
      (fun x hx => hok x (List.mem_cons_of_mem _ hx)) hfree2 hnd2.2

/-- The built Connection Graph fully wires the built Device Model exactly
when the program's connection items cover every declared input pin. -/
theorem check_network_built (ds : List DeviceDecl) (cs : List ConnDecl) (k k2 : Nat)
    (hcov : coverage ds cs = true) :
    check_network (devsAfter ⟨[], k⟩ ds) (netsAfter ⟨[], k2⟩ cs) = true := by
  unfold check_network
  rw [devsAfter_devmap, netsAfter_conns]
  dsimp only
  rw [List.nil_append, List.nil_append]
  rw [coverage] at hcov
  simp only [List.all_eq_true, List.any_eq_true, Bool.and_eq_true, beq_iff_eq]
    at hcov ⊢
  intro e he
  obtain ⟨d, hd, rfl⟩ := List.mem_map.mp he
  intro pin hpin
  dsimp only at hpin ⊢
  obtain ⟨c, hc, h1, h2⟩ := hcov d hd pin hpin
  refine ⟨connEntry c, List.mem_map_of_mem _ hc, ?_⟩
  simp [connEntry, tgt, h1, h2]

/-- Parsing a valid CONNECTION_LIST section with semantic checks:
connectionlist succeeds, builds exactly the declared connections, passes
the full-wiring check and leaves the parser just past the END keyword. -/
theorem connectionlist_ok (cs : List ConnDecl) (r1 : Symbol) (rs : List Symbol)
    (ec : Nat) (em : List (String × Nat × Nat)) (me : Bool) (dv : Devices)
    (nw : Network) (mo : Monitors) (pl : List (String × Nat × Nat))
    (hok : ∀ c ∈ cs, connOK dv c = true)
    (hfree : ∀ c ∈ cs, nw.connections.any (fun e => e.1 == tgt c) = false)
    (hnd : (cs.map tgt).Nodup)
    (hcn : check_network dv (netsAfter nw cs) = true) :
    connectionlist true ⟨clTok :: ((cs.map renderConn).flatten ++ endTok :: r1 :: rs),
        keyTok SymId.clist, ec, em, me, false, dv, nw, mo, pl⟩ =
      (true, ⟨rs, r1, ec, em, me, false, dv, netsAfter nw cs, mo, pl⟩) := by
  have hlen : cs.length ≤ ((cs.map renderConn).flatten).length :=
    length_le_flatten _ _ (fun a _ => by simp [renderConn])
  obtain ⟨sym, sc, hT⟩ :
      ∃ sym sc, (cs.map renderConn).flatten ++ endTok :: r1 :: rs = sym :: sc := by
    rcases (cs.map renderConn).flatten with _ | ⟨j, js⟩
    · exact ⟨endTok, r1 :: rs, rfl⟩
    · exact ⟨j, js ++ endTok :: r1 :: rs, by simp⟩
  have hlc := congrArg List.length hT
  simp only [List.length_append, List.length_cons] at hlc
  rw [hT]
  have hbl := build_list_conns cs (sc.length + 2) sym sc (r1 :: rs) ec em me false
    dv nw mo pl true (by omega) hT.symm hok hfree hnd
  simp +decide [connectionlist, check_keyword, get_symbol, clTok, hbl, check_end,
    endTok, keyTok, hcn]

/-- Parsing one valid monitor item from its rendered tokens: monitor adds
exactly the declared monitor point (returning None, modelled false) and
leaves the parser on the following token. -/
theorem monitor_ok (o : OutRef) (dsrc : Device) (r1 : Symbol) (rs : List Symbol)
    (ec : Nat) (em : List (String × Nat × Nat)) (me re : Bool) (dv : Devices)
    (nw : Network) (mo : Monitors) (pl : List (String × Nat × Nat))
    (hs : get_device dv (some (SymId.str o.dev)) = some dsrc)
    (hpin : match o.pin with
      | none => dsrc.device_kind ≠ some SymId.dtype ∧ dsrc.outputs.contains none = true
      | some pn => dsrc.device_kind = some SymId.dtype ∧
          dsrc.outputs.contains (some (SymId.str pn)) = true)
    (hfree : mo.monitors_dictionary.contains (monEntry o) = false) :
    monitor ⟨renderMonTail o ++ r1 :: rs, nameTok o.dev, ec, em, me, re, dv, nw, mo, pl⟩ =
      (false, ⟨rs, r1, ec, em, me, re, dv, nw, monAfter1 mo o, pl⟩) := by
  simp only [monEntry] at hfree
  rcases o with ⟨sdev, hpn⟩
  rcases hpn with _ | pn
  · dsimp only at hpin hs hfree ⊢
    obtain ⟨hp1, hp2⟩ := hpin
    have hp2m : none ∈ dsrc.outputs := by simpa using hp2
    have hfreem : ¬ ((some (SymId.str sdev), (none : Option SymId)) ∈
        mo.monitors_dictionary) := by simpa using hfree
    simp +decide [monitor, get_io, renderMonTail, renderOutTail, nameTok, peTok,
      sclTok, get_symbol, make_monitor, monAfter1, monEntry, INPUT, OUTPUT,
      hs, hp1, hp2, hp2m, hfree, hfreem]
  · dsimp only at hpin hs hfree ⊢
    obtain ⟨hp1, hp2⟩ := hpin
    have hp2m : some (SymId.str pn) ∈ dsrc.outputs := by simpa using hp2
    have hfreem : ¬ ((some (SymId.str sdev), some (SymId.str pn)) ∈
        mo.monitors_dictionary) := by simpa using hfree
    simp +decide [monitor, get_io, renderMonTail, renderOutTail, nameTok, peTok,
      sclTok, get_symbol, make_monitor, monAfter1, monEntry, INPUT, OUTPUT,
      hs, hp1, hp2, hp2m, hfree, hfreem]

/-- Running build_list over the rendered items of a valid monitor section:
every item is consumed and its monitor point made (each item returning the
falsy None), and the parser stops on the END keyword. -/
theorem build_list_mons (os : List OutRef) :
    ∀ (fuel : Nat) (sym : Symbol) (sc rest : List Symbol) (ec : Nat)
      (em : List (String × Nat × Nat)) (me re : Bool) (dv : Devices)
      (nw : Network) (mo : Monitors) (pl : List (String × Nat × Nat)) (b : Bool),
      os.length + 1 ≤ fuel →
      sym :: sc = (os.map renderMon).flatten ++ endTok :: rest →
      (∀ o ∈ os, outOK dv o = true) →
      (∀ o ∈ os, mo.monitors_dictionary.contains (monEntry o) = false) →
      (os.map monEntry).Nodup →
      build_list NAMES monitor fuel b ⟨sc, sym, ec, em, me, re, dv, nw, mo, pl⟩ =
        ((b && os.isEmpty : Bool),
          ⟨rest, endTok, ec, em, me, re, dv, nw, monsAfter mo os, pl⟩) := by
  induction os with
  | nil =>
    intro fuel sym sc rest ec em me re dv nw mo pl b hfuel hshape hok hfree hnd
    simp only [List.map_nil, List.flatten_nil, List.nil_append] at hshape
    injection hshape with hsym hsc
    subst hsym
    subst hsc
    obtain ⟨f, rfl⟩ : ∃ f, fuel = f + 1 := ⟨fuel - 1, by omega⟩
    simp [build_list, endTok, keyTok, monsAfter]
  | cons o t ih =>
    intro fuel sym sc rest ec em me re dv nw mo pl b hfuel hshape hok hfree hnd
    simp only [List.length_cons] at hfuel
    simp only [List.map_cons, List.flatten_cons, renderMon, List.cons_append,
      List.append_assoc] at hshape
    injection hshape with hsym hsc
    subst hsym
    obtain ⟨f, rfl⟩ : ∃ f, fuel = f + 1 := ⟨fuel - 1, by omega⟩
    obtain ⟨r1, rs, hJ⟩ :
        ∃ r1 rs, (t.map renderMon).flatten ++ endTok :: rest = r1 :: rs := by
      rcases (t.map renderMon).flatten with _ | ⟨j, js⟩
      · exact ⟨endTok, rest, rfl⟩
      · exact ⟨j, js ++ endTok :: rest, by simp⟩
    rw [hJ] at hsc
    subst hsc
    have hnd2 := List.nodup_cons.mp (by simpa only [List.map_cons] using hnd)
    have hoko := hok o (by simp)
    rw [outOK] at hoko
    rcases hgs : get_device dv (some (SymId.str o.dev)) with _ | dsrc
    · rw [hgs] at hoko; simp at hoko
    rw [hgs] at hoko
    have hpin : match o.pin with
        | none => dsrc.device_kind ≠ some SymId.dtype ∧ dsrc.outputs.contains none = true
        | some pn => dsrc.device_kind = some SymId.dtype ∧
            dsrc.outputs.contains (some (SymId.str pn)) = true := by
      rcases hsp : o.pin with _ | pn <;> rw [hsp] at hoko <;> dsimp only at hoko ⊢ <;>
        rw [Bool.and_eq_true] at hoko
      · exact ⟨by simpa using hoko.1, hoko.2⟩
      · exact ⟨by simpa using hoko.1, hoko.2⟩
    have hstep := monitor_ok o dsrc r1 rs ec em me re dv nw mo pl hgs hpin
      (hfree o (by simp))
    simp only [build_list]
    dsimp only [nameTok] at hstep ⊢
    rw [if_pos (show some (SymId.str o.dev) ≠ some SymId.end_ ∧
      some (SymId.str o.dev) ≠ some SymId.eof from ⟨by simp, by simp⟩)]
    rw [if_pos (rfl : (some NAMES : Option Nat) = some NAMES)]
    try dsimp only
    rw [hstep]
    try dsimp only
    have hfree2 : ∀ x ∈ t,
        (monAfter1 mo o).monitors_dictionary.contains (monEntry x) = false := by
      intro x hx
      have hx1 : monEntry x ∉ mo.monitors_dictionary := by
        simpa using hfree x (List.mem_cons_of_mem _ hx)
      have hne : monEntry o ≠ monEntry x :=
        fun hh => hnd2.1 (hh ▸ List.mem_map_of_mem _ hx)
      simp [monAfter1, hx1, hne.symm]
    have hih := ih f r1 rs rest ec em me re dv nw (monAfter1 mo o) pl false
      (by omega) hJ.symm (fun x hx => hok x (List.mem_cons_of_mem _ hx)) hfree2 hnd2.2
    simpa using hih

/-- Parsing a valid, non-empty MONITOR_LIST section at the end of the file:
monitorlist builds exactly the declared monitor points, consumes the final
END and leaves the parser at EOF with no error raised. -/
theorem monitorlist_ok (os : List OutRef) (ec : Nat)
    (em : List (String × Nat × Nat)) (me : Bool) (dv : Devices)
    (nw : Network) (mo : Monitors) (pl : List (String × Nat × Nat))
    (hok : ∀ o ∈ os, outOK dv o = true)
    (hfree : ∀ o ∈ os, mo.monitors_dictionary.contains (monEntry o) = false)
    (hnd : (os.map monEntry).Nodup)
    (hne : os ≠ []) :
    monitorlist true ⟨clTok :: ((os.map renderMon).flatten ++ [endTok]),
        keyTok SymId.mlist, ec, em, me, false, dv, nw, mo, pl⟩ =
      ⟨[], eofSymbol, ec, em, me, false, dv, nw, monsAfter mo os, pl⟩ := by
  have hlen : os.length ≤ ((os.map renderMon).flatten).length :=
    length_le_flatten _ _ (fun a _ => by simp [renderMon])
  obtain ⟨sym, sc, hT⟩ :
      ∃ sym sc, (os.map renderMon).flatten ++ [endTok] = sym :: sc := by
    rcases (os.map renderMon).flatten with _ | ⟨j, js⟩
    · exact ⟨endTok, [], rfl⟩
    · exact ⟨j, js ++ [endTok], by simp⟩
  have hlc : ((os.map renderMon).flatten).length + 1 = sc.length + 1 := by
    have hx := congrArg List.length hT
    simpa using hx
  rw [hT]
  have hbl := build_list_mons os (sc.length + 2) sym sc [] ec em me false
    dv nw mo pl true (by omega) hT.symm hok hfree hnd
  have hdictne : ((monsAfter mo os).monitors_dictionary).isEmpty = false := by
    rw [monsAfter_dict]
    rcases os with _ | ⟨o, t⟩
    · exact absurd rfl hne
    · simp
  simp +decide [monitorlist, check_keyword, get_symbol, clTok, hbl, check_end,
    endTok, keyTok, eofSymbol, hdictne]

/-- A valid output reference against the declarations is semantically valid
against the built Device Model. -/
theorem outOK_of (ds : List DeviceDecl) (k : Nat) (o : OutRef)
    (h : outRefVal ds o = true) : outOK (devsAfter ⟨[], k⟩ ds) o = true := by
  rw [outOK, get_device_built]
  rw [outRefVal] at h
  rcases hf : findDecl ds o.dev with _ | d
  · rw [hf] at h; simp at h
  rw [hf] at h
  try dsimp only
  rcases hp : o.pin with _ | pn
  · rw [hp] at h
    dsimp only at h ⊢
    have hkd : d.kind ≠ SymId.dtype := by simpa using h
    simp [mkDevice_kind, mkDevice_outputs, hkd]
  · rw [hp] at h
    dsimp only at h ⊢
    rw [Bool.and_eq_true] at h
    have hkd : d.kind = SymId.dtype := by simpa using h.1
    have hpn : pn = "Q" ∨ pn = "QBAR" := by simpa using h.2
    rcases hpn with rfl | rfl <;>
      simp +decide [mkDevice_kind, mkDevice_outputs, hkd, dtype_outputs]

/-- A valid connection item against the declarations is semantically valid
against the built Device Model. -/
theorem connOK_of (ds : List DeviceDecl) (k : Nat) (c : ConnDecl)
    (h : connVal ds c = true) : connOK (devsAfter ⟨[], k⟩ ds) c = true := by
  rw [connVal, Bool.and_eq_true] at h
  obtain ⟨h1, h2⟩ := h
  rw [connOK, Bool.and_eq_true]
  refine ⟨outOK_of ds k c.src h1, ?_⟩
  rw [get_device_built]
  rcases hf : findDecl ds c.dstDev with _ | d
  · rw [hf] at h2; simp at h2
  · rw [hf] at h2
    dsimp only at h2 ⊢
    exact h2

/-- C2, corrected: the claim is false as stated because its own example
`sw1 -> g1.1;` uses a numeric pin suffix, which get_io rejects (after a
period the parser demands a NAMES token, and the scanner types `1` as
NUMBER), so the spec's minimal example fails to parse
(claim_C2_counterexample).  Amended claim, proved here: for every valid
program conforming to §6 whose pin references are identifier tokens — three
ordered sections; distinct, unreserved device names with kind-appropriate
properties; connection items with valid output references wired once into
every input pin of every device; at least one valid monitor point, none
repeated — parse_network returns True (the parse succeeds, with zero
accumulated errors on every path that reaches the success test). -/
theorem claim_C2 (P : Program) (h : progValid P = true) :
    (parse_network (initPState (renderProgram P))).1 = true := by
  rw [progValid] at h
  simp only [Bool.and_eq_true] at h
  obtain ⟨⟨⟨⟨⟨⟨⟨h1, h2⟩, h3⟩, h4⟩, h5⟩, h6⟩, h7⟩, h8⟩ := h
  have hdev : ∀ d ∈ P.devs, devVal d = true := by
    intro d hd
    have hx := (List.all_eq_true.mp h2) d hd
    rw [Bool.and_eq_true] at hx
    exact hx.1
  have hnd : (P.devs.map (fun d => d.dname)).Nodup := of_decide_eq_true h1
  have hcnd : (P.conns.map tgt).Nodup := of_decide_eq_true h4
  have hmnd : (P.mons.map monEntry).Nodup := of_decide_eq_true h8
  have hcok : ∀ c ∈ P.conns, connOK (devsAfter ⟨[], 0⟩ P.devs) c = true := by
    intro c hc
    have hx := (List.all_eq_true.mp h3) c hc
    simp only [Bool.and_eq_true] at hx
    exact connOK_of P.devs 0 c hx.1.1.1.1
  have hmok : ∀ o ∈ P.mons, outOK (devsAfter ⟨[], 0⟩ P.devs) o = true := by
    intro o ho
    have hx := (List.all_eq_true.mp h7) o ho
    simp only [Bool.and_eq_true] at hx
    exact outOK_of P.devs 0 o hx.1.1
  have hmne : P.mons ≠ [] := by
    rcases hm : P.mons with _ | ⟨o, t⟩
    · rw [hm] at h6; simp at h6
    · simp
  have hcn : check_network (devsAfter ⟨[], 0⟩ P.devs)
      (netsAfter ⟨[], 0⟩ P.conns) = true :=
    check_network_built P.devs P.conns 0 0 h5
  have hd1 := devicelist_ok P.devs (keyTok SymId.clist)
    (clTok :: ((P.conns.map renderConn).flatten ++ endTok ::
      keyTok SymId.mlist :: clTok :: ((P.mons.map renderMon).flatten ++ [endTok])))
    0 [] false ⟨[], 0⟩ ⟨[], 0⟩ ⟨[], 0⟩ [] hdev (fun d hd => rfl) hnd
  have hd2 := connectionlist_ok P.conns (keyTok SymId.mlist)
    (clTok :: ((P.mons.map renderMon).flatten ++ [endTok]))
    0 [] false (devsAfter ⟨[], 0⟩ P.devs) ⟨[], 0⟩ ⟨[], 0⟩ [] hcok
    (fun c hc => rfl) hcnd hcn
  have hd3 := monitorlist_ok P.mons 0 [] false (devsAfter ⟨[], 0⟩ P.devs)
    (netsAfter ⟨[], 0⟩ P.conns) ⟨[], 0⟩ [] hmok (fun o ho => rfl) hmnd hmne
  simp +decide [parse_network, initPState, renderProgram, get_symbol,
    hd1, hd2, hd3, eofSymbol]

set_option maxRecDepth 100000 in
/-- C2 witness: the corrected §6 minimal example (identifier pins g1.I1 and
g1.I2) is a valid program and parses successfully. -/
theorem claim_C2_witness :
    progValid exampleProgram = true ∧
    (parse_network (initPState (renderProgram exampleProgram))).1 = true :=
  ⟨by decide, claim_C2 exampleProgram (by decide)⟩

set_option maxRecDepth 1000000 in
set_option maxHeartbeats 2000000 in
/-- C2 counterexample: the spec's own §6 minimal example, whose connection
items `sw1 -> g1.1;` and `sw1 -> g1.2;` carry numeric pin suffixes, is
rejected by parse_network (run end to end from the raw text through the
scanner), while the same file with the identifier pin names g1.I1 and g1.I2
is accepted. -/
theorem claim_C2_counterexample :
    (parse_text exampleText).1 = false ∧ (parse_text exampleTextFixed).1 = true := by
  constructor
  · decide
  · decide

end LogicSim